import Mathlib

/-!
Shallow embedding of the sotoon-sdk-go interceptor middleware
(`sdk/interceptors/`): the call-context data model, the chain executor
(`InterceptorTransport.RoundTripWithID`), and the concrete interceptors
(Authenticator, Logger, TreatAsError, Retry, CircuitBreaker), together with
theorems about the spec's claims.

Modelling conventions:
- Go pointers to `http.Request` / `http.Response` become immutable values;
  in-place mutation becomes a functional update of the corresponding field.
- `io.ReadCloser` bodies are modelled at two levels.  The base model uses
  `Option String`: the readable remaining content (`none` = nil body), with
  `io.ReadAll` returning the content and the source's explicit
  `NopCloser(bytes.NewReader(b))` restore step writing the bytes back; this
  is adequate for properties that do not depend on reader sharing.  The
  aliased model (`RequestA`, `AWorld`) holds request readers by reference in
  a cell store, capturing that `http.Request.Clone` shares the `Body` reader
  between the pristine snapshot and the working request.
- Errors (`error`) become an inductive `GoError`; `fmt.Errorf` with a plain
  format becomes `GoError.msg`.
- The per-call attempt store (`go-cache`) becomes an association list inside
  an explicit `World`; expiry is irrelevant to the claims and not modelled.
- The retry interceptor's replay `Transporter` and the executor's underlying
  `http.RoundTripper` are oracles (`Except GoError Response`), with each
  invocation logged in the `World` so attempt counts are observable.
- Recursive retry re-entry uses explicit fuel; `panic` becomes a dedicated
  outcome constructor.
-/

/-- Model of `*http.Request` (the fields the interceptors touch). -/
structure Request where
  method : String
  urlPath : String
  headers : List (String × String)
  body : Option String
deriving Repr, DecidableEq

/-- Model of `*http.Response` (the fields the interceptors touch). -/
structure Response where
  statusCode : Int
  headers : List (String × String)
  body : Option String
deriving Repr, DecidableEq

/-- Go `error` values that appear in the interceptor package. -/
inductive GoError where
  | errMaxRetriesExceeded
  | errCircuitBreakerOpen
  | msg (s : String)
deriving Repr, DecidableEq

/-- `interceptors.InterceptorData` from `sdk/interceptors/interceptors.go`. -/
structure InterceptorData where
  id : String
  initialRequest : Request
  request : Request
  response : Option Response
  error : Option GoError
deriving Repr, DecidableEq

/-- `http.Header.Set`: replace any existing value of the key. -/
def headerSet (hs : List (String × String)) (k v : String) : List (String × String) :=
  (k, v) :: hs.filter (fun p => p.1 ≠ k)

/-- `Authenticator.BeforeRequest`: stamp the working request with the bearer
credential (`sdk/interceptors/authenticator.go`). -/
def authenticatorBeforeRequest (secretKey : String) (data : InterceptorData) :
    InterceptorData × Option GoError :=
  ({ data with request :=
      { data.request with headers :=
          (headerSet data.request.headers "Authorization" ("Bearer " ++ secretKey)) } }, none)

/-- `Authenticator.AfterResponse`: no-op. -/
def authenticatorAfterResponse (data : InterceptorData) :
    InterceptorData × Option GoError :=
  (data, none)

/-! ## Retry subsystem (`sdk/interceptors/retry.go`, src/unnamed/part_001) -/

/-- Observable world threaded through the stateful interceptors: the retry
attempt cache (`go-cache`, id ↦ RetryCount) and the log of requests sent
through the retry interceptor's replay `Transporter`. -/
structure World where
  retryCache : List (String × Nat)
  sent : List Request
deriving Repr, DecidableEq

def emptyWorld : World := ⟨[], []⟩

def cacheGet (c : List (String × Nat)) (id : String) : Option Nat :=
  (c.find? (fun p => p.1 == id)).map (fun p => p.2)

def cacheSet (c : List (String × Nat)) (id : String) (n : Nat) : List (String × Nat) :=
  (id, n) :: c

/-- `RetryInterceptor.getRetryInternalData`: look up the per-id attempt count,
incrementing it, or initialise it to 1. -/
def getRetryInternalData (w : World) (id : String) : Nat × World :=
  match cacheGet w.retryCache id with
  | some n => (n + 1, { w with retryCache := cacheSet w.retryCache id (n + 1) })
  | none => (1, { w with retryCache := cacheSet w.retryCache id 1 })

/-- The attempt count currently stored for an id (0 when absent). -/
def cacheCount (w : World) (id : String) : Nat :=
  match cacheGet w.retryCache id with
  | some n => n
  | none => 0

/-- The replay `Transporter` oracle: outcome of the n-th replay invocation. -/
def Transporter := Nat → Request → Except GoError Response

/-- `Transporter.RoundTripWithID` as an effect on the world: log the request
and produce the oracle's outcome. -/
def transporterCall (tr : Transporter) (w : World) (req : Request) :
    Except GoError Response × World :=
  (tr w.sent.length req, { w with sent := w.sent ++ [req] })

/-- `RetryDecider.ShouldRetry`: response, error, retry count ↦ (retry?, err). -/
def RetryDecider := Option Response → Option GoError → Nat → Bool × Option GoError

def responseFails : Option Response → Bool
  | some r => if 400 ≤ r.statusCode then true else false
  | none => false

/-- `RetryDeciderAll.ShouldRetry`: stop with the concrete error (or the
generic exhaustion error) once RetryCount ≥ maxRetries; otherwise retry
exactly when an error occurred or the response has status ≥ 400. -/
def retryDeciderAll (maxRetries : Int) : RetryDecider := fun response err retryCount =>
  if maxRetries ≤ (retryCount : Int) then
    match err with
    | some e => (false, some e)
    | none => (false, some GoError.errMaxRetriesExceeded)
  else if err.isSome || responseFails response then
    (true, none)
  else
    (false, none)

/-- Outcome of a retry-interceptor hook: normal return, a Go `panic`, or
fuel exhaustion of the model. -/
inductive RetryOutcome where
  | ok (data : InterceptorData) (err : Option GoError) (w : World)
  | panicked (e : GoError) (w : World)
  | outOfFuel
deriving Repr, DecidableEq

def RetryOutcome.world? : RetryOutcome → Option World
  | .ok _ _ w => some w
  | .panicked _ w => some w
  | .outOfFuel => none

/-- `RetryInterceptor.BeforeRequest`: if the context already carries an error,
consult the decider; on refusal `panic(err)` when the decider also returned an
error, else propagate the existing error; on approval sleep, re-issue the
**working** request (`data.Request`) through the replay transporter and loop. -/
def retryBeforeRequest (decider : RetryDecider) (tr : Transporter) :
    Nat → InterceptorData → World → RetryOutcome
  | 0, _, _ => .outOfFuel
  | fuel + 1, data, w =>
    match data.error with
    | none => .ok data none w
    | some _ =>
      let (count, w1) := getRetryInternalData w data.id
      match decider data.response data.error count with
      | (false, some e) => .panicked e w1
      | (false, none) => .ok data data.error w1
      | (true, _) =>
        let (res, w2) := transporterCall tr w1 data.request
        match res with
        | .error e => retryBeforeRequest decider tr fuel { data with error := some e } w2
        | .ok response =>
          if 400 ≤ response.statusCode then
            retryBeforeRequest decider tr fuel data w2
          else
            .ok { data with error := none, response := some response } none w2

/-- `RetryInterceptor.AfterResponse`: consult the decider; a decider error is
returned as the hook's failure; on refusal return the context's error; on
approval sleep, re-issue the **pristine** `data.InitialRequest` through the
replay transporter, store the new response, and loop. -/
def retryAfterResponse (decider : RetryDecider) (tr : Transporter) :
    Nat → InterceptorData → World → RetryOutcome
  | 0, _, _ => .outOfFuel
  | fuel + 1, data, w =>
    let (count, w1) := getRetryInternalData w data.id
    match decider data.response data.error count with
    | (_, some e) => .ok data (some e) w1
    | (false, none) => .ok data data.error w1
    | (true, none) =>
      let (res, w2) := transporterCall tr w1 data.initialRequest
      match res with
      | .error e =>
        retryAfterResponse decider tr fuel { data with response := none, error := some e } w2
      | .ok response =>
        if 400 ≤ response.statusCode then
          retryAfterResponse decider tr fuel { data with response := some response } w2
        else
          .ok { data with response := some response, error := none } none w2

/-! ## JSON parsing (model of `encoding/json` as used by the error detector) -/

def quoteChar : Char := Char.ofNat 34
def backslashChar : Char := Char.ofNat 92
def lbraceChar : Char := Char.ofNat 123
def rbraceChar : Char := Char.ofNat 125

inductive Json where
  | null
  | jbool (b : Bool)
  | num (raw : String)
  | str (s : String)
  | arr (elems : List Json)
  | obj (fields : List (String × Json))

def isJsonWs (c : Char) : Bool :=
  c = ' ' || c = '\t' || c = '\n' || c = '\r'

def skipWs (cs : List Char) : List Char := cs.dropWhile isJsonWs

def hexVal (c : Char) : Option Nat :=
  if '0' ≤ c ∧ c ≤ '9' then some (c.toNat - '0'.toNat)
  else if 'a' ≤ c ∧ c ≤ 'f' then some (c.toNat - 'a'.toNat + 10)
  else if 'A' ≤ c ∧ c ≤ 'F' then some (c.toNat - 'A'.toNat + 10)
  else none

/-- Parse the body of a JSON string literal (after the opening quote),
returning the decoded characters and the remaining input. -/
def parseStringBody : Nat → List Char → Option (List Char × List Char)
  | 0, _ => none
  | _, [] => none
  | fuel + 1, c :: rest =>
    if c = quoteChar then some ([], rest)
    else if c = backslashChar then
      match rest with
      | [] => none
      | e :: rest2 =>
        if e = quoteChar || e = backslashChar || e = '/' then
          (parseStringBody fuel rest2).map (fun p => (e :: p.1, p.2))
        else if e = 'b' then
          (parseStringBody fuel rest2).map (fun p => (Char.ofNat 8 :: p.1, p.2))
        else if e = 'f' then
          (parseStringBody fuel rest2).map (fun p => (Char.ofNat 12 :: p.1, p.2))
        else if e = 'n' then
          (parseStringBody fuel rest2).map (fun p => (Char.ofNat 10 :: p.1, p.2))
        else if e = 'r' then
          (parseStringBody fuel rest2).map (fun p => (Char.ofNat 13 :: p.1, p.2))
        else if e = 't' then
          (parseStringBody fuel rest2).map (fun p => (Char.ofNat 9 :: p.1, p.2))
        else if e = 'u' then
          match rest2 with
          | h1 :: h2 :: h3 :: h4 :: rest3 =>
            match hexVal h1, hexVal h2, hexVal h3, hexVal h4 with
            | some a, some b, some c', some d =>
              let code := ((a * 16 + b) * 16 + c') * 16 + d
              (parseStringBody fuel rest3).map (fun p => (Char.ofNat code :: p.1, p.2))
            | _, _, _, _ => none
          | _ => none
        else none
    else if c.toNat < 32 then none
    else (parseStringBody fuel rest).map (fun p => (c :: p.1, p.2))

def takeDigits (cs : List Char) : List Char × List Char :=
  (cs.takeWhile Char.isDigit, cs.dropWhile Char.isDigit)

/-- Parse a JSON number (grammar `-? int frac? exp?`), returning its raw
characters and the remaining input. -/
def parseNumber (cs : List Char) : Option (List Char × List Char) :=
  let (sign, cs1) :=
    match cs with
    | c :: rest => if c = '-' then ([c], rest) else (([] : List Char), cs)
    | [] => ([], [])
  match takeDigits cs1 with
  | ([], _) => none
  | (ds, cs2) =>
    if 1 < ds.length ∧ ds.head? = some '0' then none
    else
      let (fracPart, cs3) :=
        match cs2 with
        | c :: rest =>
          if c = '.' then
            match takeDigits rest with
            | ([], _) => (none, cs2)
            | (fs, rest') => (some (c :: fs), rest')
          else ((none : Option (List Char)), cs2)
        | [] => (none, cs2)
      match fracPart, cs2 with
      | none, c :: _ => if c = '.' then none else
          parseExpPart (sign ++ ds) cs3
      | _, _ => parseExpPart (sign ++ ds ++ fracPart.getD []) cs3
where
  parseExpPart (acc : List Char) (cs : List Char) : Option (List Char × List Char) :=
    match cs with
    | c :: rest =>
      if c = 'e' ∨ c = 'E' then
        let (es, rest1) :=
          match rest with
          | c2 :: rest2 => if c2 = '+' ∨ c2 = '-' then ([c2], rest2) else (([] : List Char), rest)
          | [] => ([], rest)
        match takeDigits rest1 with
        | ([], _) => none
        | (ds2, rest2) => some (acc ++ c :: es ++ ds2, rest2)
      else some (acc, cs)
    | [] => some (acc, cs)

mutual

/-- Parse one JSON value (fuel-bounded recursive descent). -/
def parseValue : Nat → List Char → Option (Json × List Char)
  | 0, _ => none
  | fuel + 1, cs =>
    match skipWs cs with
    | [] => none
    | c :: rest =>
      if c = quoteChar then
        (parseStringBody (fuel + 1) rest).map (fun p => (Json.str (String.mk p.1), p.2))
      else if c = lbraceChar then
        match skipWs rest with
        | d :: rest2 =>
          if d = rbraceChar then some (Json.obj [], rest2)
          else (parseMembers fuel (skipWs rest)).map (fun p => (Json.obj p.1, p.2))
        | [] => none
      else if c = '[' then
        match skipWs rest with
        | d :: rest2 =>
          if d = ']' then some (Json.arr [], rest2)
          else (parseElems fuel (skipWs rest)).map (fun p => (Json.arr p.1, p.2))
        | [] => none
      else if c = 't' then
        match rest with
        | 'r' :: 'u' :: 'e' :: rest' => some (Json.jbool true, rest')
        | _ => none
      else if c = 'f' then
        match rest with
        | 'a' :: 'l' :: 's' :: 'e' :: rest' => some (Json.jbool false, rest')
        | _ => none
      else if c = 'n' then
        match rest with
        | 'u' :: 'l' :: 'l' :: rest' => some (Json.null, rest')
        | _ => none
      else
        (parseNumber (c :: rest)).map (fun p => (Json.num (String.mk p.1), p.2))

/-- Parse object members `string : value (, string : value)* rbrace`. -/
def parseMembers : Nat → List Char → Option (List (String × Json) × List Char)
  | 0, _ => none
  | fuel + 1, cs =>
    match skipWs cs with
    | [] => none
    | c :: rest =>
      if c = quoteChar then
        match parseStringBody (fuel + 1) rest with
        | some (key, cs1) =>
          match skipWs cs1 with
          | c2 :: cs2 =>
            if c2 = ':' then
              match parseValue fuel cs2 with
              | some (v, cs3) =>
                match skipWs cs3 with
                | c3 :: cs4 =>
                  if c3 = ',' then
                    (parseMembers fuel cs4).map (fun p => ((String.mk key, v) :: p.1, p.2))
                  else if c3 = rbraceChar then some ([(String.mk key, v)], cs4)
                  else none
                | [] => none
              | none => none
            else none
          | [] => none
        | none => none
      else none

/-- Parse array elements `value (, value)* ]`. -/
def parseElems : Nat → List Char → Option (List Json × List Char)
  | 0, _ => none
  | fuel + 1, cs =>
    match parseValue fuel cs with
    | some (v, cs1) =>
      match skipWs cs1 with
      | c :: cs2 =>
        if c = ',' then (parseElems fuel cs2).map (fun p => (v :: p.1, p.2))
        else if c = ']' then some ([v], cs2)
        else none
      | [] => none
    | none => none

end

/-- Parse a whole JSON document: one value plus trailing whitespace. -/
def parseJson (s : String) : Option Json :=
  match parseValue (s.length + 2) s.data with
  | some (j, rest) => if (skipWs rest).isEmpty then some j else none
  | none => none

/-! ## TreatAsError interceptor (`sdk/interceptors/treat_as_error.go`) -/

/-- The `errorTemplate` struct the detector unmarshals error bodies into. -/
structure ErrorTemplate where
  details : String
  reason : String
  messageDetail : String
  errorField : String
deriving Repr, DecidableEq

def zeroTemplate : ErrorTemplate := ⟨"", "", "", ""⟩

/-- `strings.ToLower` (Go standard-library collaborator), modelled over the
ASCII range, which covers the JSON keys and header names involved. -/
def strToLower (s : String) : String := String.mk (s.data.map Char.toLower)

/-- Decode one key of the nested `message` object (json tag `detail`);
`encoding/json` matches keys case-insensitively and ignores non-string
values for a string field. -/
def applyMessageField (t : ErrorTemplate) (kv : String × Json) : ErrorTemplate :=
  if strToLower kv.1 = "detail" then
    match kv.2 with
    | .str s => { t with messageDetail := s }
    | _ => t
  else t

/-- Decode one top-level object key into the template (json tags `details`,
`reason`, `message`, `error`); later duplicate keys overwrite earlier ones. -/
def applyField (t : ErrorTemplate) (kv : String × Json) : ErrorTemplate :=
  let kl := strToLower kv.1
  match kv.2 with
  | .str s =>
    if kl = "details" then { t with details := s }
    else if kl = "reason" then { t with reason := s }
    else if kl = "error" then { t with errorField := s }
    else t
  | .obj fields =>
    if kl = "message" then fields.foldl applyMessageField t else t
  | _ => t

/-- `json.Unmarshal(body, &errorTemplate)` as used by the detector: the
source ignores the unmarshal error and keeps whatever was decoded, so a
syntactically invalid or non-object body leaves the zero template. -/
def unmarshalErrorTemplate (body : String) : ErrorTemplate :=
  match parseJson body with
  | some (Json.obj fields) => fields.foldl applyField zeroTemplate
  | _ => zeroTemplate

def defaultErrorText (code : Int) : String :=
  "non-2xx response: " ++ toString code

/-- `treatAsErrorInterceptor_ErrorDetectorAll.IsError`: classify a response
with status ≥ 400, extracting `message.detail`, then `reason`, then `error`
from the JSON body, falling back to the generic text; the body is restored
after reading (the returned data carries the restored response, since the Go
code mutates the shared `*http.Response`). -/
def errorDetectorAllIsError (data : InterceptorData) : Option GoError × InterceptorData :=
  match data.response with
  | some resp =>
    if 400 ≤ resp.statusCode then
      let defaultError := GoError.msg (defaultErrorText resp.statusCode)
      match resp.body with
      | some bodyContent =>
        let data' : InterceptorData :=
          { data with response := some { resp with body := some bodyContent } }
        let t := unmarshalErrorTemplate bodyContent
        if t.messageDetail ≠ "" then (some (GoError.msg t.messageDetail), data')
        else if t.reason ≠ "" then (some (GoError.msg t.reason), data')
        else if t.errorField ≠ "" then (some (GoError.msg t.errorField), data')
        else (some defaultError, data')
      | none => (some defaultError, data)
    else (none, data)
  | none => (none, data)

/-- `TreatAsErrorInterceptor.AfterResponse`: set the context error when the
detector classifies the response as failing. -/
def treatAsErrorAfterResponse (data : InterceptorData) : InterceptorData × Option GoError :=
  let (e, data') := errorDetectorAllIsError data
  match e with
  | some err => ({ data' with error := some err }, none)
  | none => (data', none)

/-- `TreatAsErrorInterceptor.BeforeRequest`: no-op. -/
def treatAsErrorBeforeRequest (data : InterceptorData) : InterceptorData × Option GoError :=
  (data, none)

/-- The spec's description of the surfaced error text, written from the
spec's words for comparison: nested detail, then reason, then error field,
then the generic fallback. -/
def specSurfacedText (code : Int) (t : ErrorTemplate) : String :=
  if t.messageDetail ≠ "" then t.messageDetail
  else if t.reason ≠ "" then t.reason
  else if t.errorField ≠ "" then t.errorField
  else defaultErrorText code

/-! ## Backoff strategies (`sdk/interceptors/retry.go`) -/

/-- Two's-complement wrap of an integer to the signed 64-bit range, matching
Go `int`/`time.Duration` arithmetic overflow. -/
def wrap64 (n : Int) : Int := (n + 2 ^ 63) % 2 ^ 64 - 2 ^ 63

/-- Go `1 << uint(retry)` at type `int` (64-bit two's complement); shift
counts of 64 or more yield 0. -/
def shlOne64 (s : Nat) : Int := wrap64 (2 ^ s)

/-- `exponentialBackoff(retry, initialBackoff, maxBackoff)`: returns the base
duration for `retry <= 0`; otherwise doubles the base `retry` times, adds a
jitter drawn by `rand.Int63n(backoff/2)` — which panics (`none`) when its
argument is not positive — and caps the sum at `maxBackoff`.  `jitterDraw`
abstracts the random source: it receives the bound `backoff/2`. -/
def exponentialBackoff (retry : Int) (initialBackoff maxBackoff : Int)
    (jitterDraw : Int → Int) : Option Int :=
  if retry ≤ 0 then some initialBackoff
  else
    let backoff := wrap64 (initialBackoff * shlOne64 retry.toNat)
    let half := Int.tdiv backoff 2
    if half ≤ 0 then none
    else
      let jitter := jitterDraw half
      let backoff2 := wrap64 (backoff + jitter)
      some (if maxBackoff < backoff2 then maxBackoff else backoff2)

/-- `BackoffStrategyExpnential.TimeToWait`. -/
def backoffExpTimeToWait (baseDuration maxBackoff : Int) (jitterDraw : Int → Int)
    (iteration : Int) : Option Int :=
  exponentialBackoff iteration baseDuration maxBackoff jitterDraw

/-- `BackoffStrategyLinier.TimeToWait`: a fixed duration per attempt. -/
def backoffLinierTimeToWait (baseDuration : Int) (_iteration : Int) : Int :=
  baseDuration

/-! ## Circuit breaker interceptor (`sdk/interceptors/circute_breaker.go`) -/

inductive CBState where
  | stateClosed
  | stateHalfOpen
  | stateOpen
deriving Repr, DecidableEq

/-- Abstraction of a `gobreaker.CircuitBreaker` (external library): its
current state plus the status codes recorded through `Execute`.  The
library's internal counter/state transition is abstracted as a parameter
where it matters. -/
structure CircuitBreaker where
  state : CBState
  recorded : List Int
deriving Repr, DecidableEq

structure CircuitBreakerInterceptor where
  abortOnFailure : Bool
  cb : CircuitBreaker
deriving Repr, DecidableEq

/-- `NewCircuitBreakerInterceptor`: panics (`none`) on a nil breaker; the
abort-vs-continue flag is fixed here at construction. -/
def newCircuitBreakerInterceptor (cb : Option CircuitBreaker) (abortOnFailure : Bool) :
    Option CircuitBreakerInterceptor :=
  match cb with
  | none => none
  | some cb => some ⟨abortOnFailure, cb⟩

/-- `CircuitBreakerInterceptor.BeforeRequest`: when the breaker is open,
abort with the breaker-open failure if configured to abort, else mark the
context as already-failed and let the chain continue. -/
def circuitBreakerBeforeRequest (c : CircuitBreakerInterceptor) (data : InterceptorData) :
    InterceptorData × Option GoError :=
  if c.cb.state = CBState.stateOpen then
    if c.abortOnFailure then (data, some GoError.errCircuitBreakerOpen)
    else ({ data with error := some GoError.errCircuitBreakerOpen }, none)
  else (data, none)

/-- `CircuitBreakerInterceptor.AfterResponse`: when the context carries a
response, record its status code through `Execute` (abstract transition
`exec`), then return the context error only when configured to abort; with
no response the breaker is untouched. -/
def circuitBreakerAfterResponse (exec : CircuitBreaker → Int → CircuitBreaker)
    (c : CircuitBreakerInterceptor) (data : InterceptorData) :
    CircuitBreakerInterceptor × InterceptorData × Option GoError :=
  match data.response with
  | some resp =>
    let c' := { c with cb := exec c.cb resp.statusCode }
    match data.error with
    | some e => if c.abortOnFailure then (c', data, some e) else (c', data, none)
    | none => (c', data, none)
  | none => (c, data, none)

/-! ## Logger interceptor (`sdk/interceptors/logger.go`) -/

structure LoggerOptions where
  logBasicInfo : Bool
  logHeaders : Bool
  logBody : Bool
  maxBodyLogSize : Int
  skipHeaders : List String
  skipPaths : List String
deriving Repr, DecidableEq

/-- `NewLogger`: default the max body log size to 1024 when unset and
lowercase the skip-header list (the `*log.Logger` sink is external). -/
def newLogger (opts : LoggerOptions) : LoggerOptions :=
  let opts := if opts.maxBodyLogSize = 0 then { opts with maxBodyLogSize := 1024 } else opts
  { opts with skipHeaders := opts.skipHeaders.map strToLower }

/-- `Logger.shouldSkipHeader`: case-insensitive membership in the skip list. -/
def shouldSkipHeader (opts : LoggerOptions) (name : String) : Bool :=
  opts.skipHeaders.contains (strToLower name)

/-- `Logger.buildHeaderLogs`. -/
def buildHeaderLogs (opts : LoggerOptions) (pfx id : String)
    (headers : List (String × String)) : String :=
  headers.foldl (fun acc p =>
    if shouldSkipHeader opts p.1 then acc
    else acc ++ "[" ++ id ++ "] " ++ pfx ++ " HEADER: " ++ p.1 ++ ": " ++ p.2 ++ "\n") ""

/-- `http.StatusText` (Go standard-library collaborator), abridged to common
codes; unknown codes give "" as in Go. -/
def statusText (code : Int) : String :=
  if code = 200 then "OK"
  else if code = 201 then "Created"
  else if code = 204 then "No Content"
  else if code = 301 then "Moved Permanently"
  else if code = 302 then "Found"
  else if code = 400 then "Bad Request"
  else if code = 401 then "Unauthorized"
  else if code = 403 then "Forbidden"
  else if code = 404 then "Not Found"
  else if code = 429 then "Too Many Requests"
  else if code = 500 then "Internal Server Error"
  else if code = 502 then "Bad Gateway"
  else if code = 503 then "Service Unavailable"
  else ""

/-- Go `body = body[:max]` guarded by `len(body) > max`: slicing with a
negative bound panics (`none`). -/
def truncateForLog (body : String) (maxSize : Int) : Option (String × Bool) :=
  if maxSize < (body.length : Int) then
    if maxSize < 0 then none
    else some (body.take maxSize.toNat, true)
  else some (body, false)

/-- `Logger.BeforeRequest`: skip excluded path prefixes; build the basic /
header / body log lines; a logged body is read and then restored before the
local copy is truncated.  Returns the updated data, the hook failure, and
the text given to the log sink; `none` models a runtime panic. -/
def loggerBeforeRequest (opts : LoggerOptions) (data : InterceptorData) :
    Option (InterceptorData × Option GoError × String) :=
  if opts.skipPaths.any (fun p => p.isPrefixOf data.request.urlPath) then
    some (data, none, "")
  else
    let basic :=
      if opts.logBasicInfo then
        "[" ++ data.id ++ "] --> " ++ data.request.method ++ " " ++ data.request.urlPath ++ "\n"
      else ""
    let headerPart :=
      if opts.logHeaders then buildHeaderLogs opts "REQ" data.id data.request.headers
      else ""
    match (if opts.logBody then data.request.body else none) with
    | some bodyContent =>
      let data' : InterceptorData :=
        { data with request := { data.request with body := some bodyContent } }
      match truncateForLog bodyContent opts.maxBodyLogSize with
      | none => none
      | some (logged, truncated) =>
        let bodyLine := "[" ++ data.id ++ "] REQ BODY: " ++ logged ++
          (if truncated then " [truncated...]" else "") ++ "\n"
        some (data', none, basic ++ headerPart ++ bodyLine)
    | none => some (data, none, basic ++ headerPart)

/-- `Logger.AfterResponse`: as `BeforeRequest` but over the response; the Go
code dereferences `data.Response` unconditionally under each enabled flag,
so a nil response with any flag enabled is a runtime panic (`none`). -/
def loggerAfterResponse (opts : LoggerOptions) (data : InterceptorData) :
    Option (InterceptorData × Option GoError × String) :=
  if opts.skipPaths.any (fun p => p.isPrefixOf data.request.urlPath) then
    some (data, none, "")
  else
    match data.response with
    | none =>
      if opts.logBasicInfo ∨ opts.logHeaders ∨ opts.logBody then none
      else some (data, none, "")
    | some resp =>
      let basic :=
        if opts.logBasicInfo then
          "[" ++ data.id ++ "] <-- " ++ toString resp.statusCode ++ " " ++
            statusText resp.statusCode ++ "\n"
        else ""
      let headerPart :=
        if opts.logHeaders then buildHeaderLogs opts "RESP" data.id resp.headers
        else ""
      match (if opts.logBody then resp.body else none) with
      | some bodyContent =>
        let data' : InterceptorData :=
          { data with response := some { resp with body := some bodyContent } }
        match truncateForLog bodyContent opts.maxBodyLogSize with
        | none => none
        | some (logged, truncated) =>
          let bodyLine := "[" ++ data.id ++ "] RESP BODY: " ++ logged ++
            (if truncated then " [truncated...]" else "") ++ "\n"
          some (data', none, basic ++ headerPart ++ bodyLine)
      | none => some (data, none, basic ++ headerPart)

/-! ## Chain executor (`sdk/interceptors/transport.go`) -/

/-- An interceptor's two-hook contract; hooks observe and update the call
context and the world, and may panic or (in the model) run out of fuel. -/
structure Hook where
  beforeRequest : InterceptorData → World → RetryOutcome
  afterResponse : InterceptorData → World → RetryOutcome

inductive BeforeResult where
  | proceed (data : InterceptorData) (w : World)
  | shortCircuit (resp : Response) (data : InterceptorData) (w : World)
  | aborted (e : GoError) (data : InterceptorData) (w : World)
  | panicked (e : GoError) (w : World)
  | outOfFuel
deriving Repr, DecidableEq

/-- The executor's before-phase loop: run each hook in order; a hook failure
aborts; an attached response short-circuits, skipping the remaining hooks. -/
def runBefore : List Hook → InterceptorData → World → BeforeResult
  | [], data, w => .proceed data w
  | h :: rest, data, w =>
    match h.beforeRequest data w with
    | .ok data' err w' =>
      match err with
      | some e => .aborted e data' w'
      | none =>
        match data'.response with
        | some r => .shortCircuit r data' w'
        | none => runBefore rest data' w'
    | .panicked e w' => .panicked e w'
    | .outOfFuel => .outOfFuel

inductive AfterResult where
  | done (data : InterceptorData) (w : World)
  | aborted (e : GoError) (data : InterceptorData) (w : World)
  | panicked (e : GoError) (w : World)
  | outOfFuel
deriving Repr, DecidableEq

/-- The executor's after-phase loop: run each hook in order; a hook failure
aborts the chain. -/
def runAfter : List Hook → InterceptorData → World → AfterResult
  | [], data, w => .done data w
  | h :: rest, data, w =>
    match h.afterResponse data w with
    | .ok data' err w' =>
      match err with
      | some e => .aborted e data' w'
      | none => runAfter rest data' w'
    | .panicked e w' => .panicked e w'
    | .outOfFuel => .outOfFuel

inductive ChainResult where
  | success (resp : Response)
  | failure (e : GoError)
  | panicked (e : GoError)
  | outOfFuel
deriving Repr, DecidableEq

/-- The underlying `http.RoundTripper` oracle (invoked at most once per run). -/
def RtOracle := Request → Except GoError Response

/-- Result of one chain execution; `finalData` and `rtLog` expose the final
call context and the underlying-transport invocations for specification. -/
structure ChainOutcome where
  result : ChainResult
  finalData : Option InterceptorData
  world : World
  rtLog : List Request
deriving Repr, DecidableEq

/-- `InterceptorTransport.RoundTripWithID`: clone the request into the
pristine snapshot, run the before hooks in order, fail on a pre-set terminal
error, perform the single underlying network call with the working request,
run the after hooks in the same order, and fail on a terminal error —
otherwise return the response obtained from the underlying call.

In this variant the clone is a value copy, adequate for properties that do
not concern the snapshot's body content.  Go's `http.Request.Clone` copies
the `Body` field shallowly — the snapshot and the working request share one
reader — which `roundTripWithIDA` below models faithfully. -/
def roundTripWithID (hooks : List Hook) (rt : RtOracle) (req : Request) (id : String)
    (w : World) : ChainOutcome :=
  let initialReq := req
  let data0 : InterceptorData := ⟨id, initialReq, req, none, none⟩
  match runBefore hooks data0 w with
  | .aborted e d w1 => ⟨.failure e, some d, w1, []⟩
  | .shortCircuit r d w1 => ⟨.success r, some d, w1, []⟩
  | .panicked e w1 => ⟨.panicked e, none, w1, []⟩
  | .outOfFuel => ⟨.outOfFuel, none, w, []⟩
  | .proceed data w1 =>
    match data.error with
    | some e => ⟨.failure e, some data, w1, []⟩
    | none =>
      match rt data.request with
      | .error e => ⟨.failure e, some data, w1, [data.request]⟩
      | .ok resp =>
        let data2 := { data with response := some resp }
        match runAfter hooks data2 w1 with
        | .done d w2 =>
          match d.error with
          | some e => ⟨.failure e, some d, w2, [data.request]⟩
          | none => ⟨.success resp, some d, w2, [data.request]⟩
        | .aborted e d w2 => ⟨.failure e, some d, w2, [data.request]⟩
        | .panicked e w2 => ⟨.panicked e, none, w2, [data.request]⟩
        | .outOfFuel => ⟨.outOfFuel, none, w1, [data.request]⟩

/-- Lift a pair of pure hook functions into the executor's hook contract. -/
def pureHook (bf af : InterceptorData → InterceptorData × Option GoError) : Hook :=
  { beforeRequest := fun data w => .ok (bf data).1 (bf data).2 w,
    afterResponse := fun data w => .ok (af data).1 (af data).2 w }

def authenticatorHook (secretKey : String) : Hook :=
  pureHook (authenticatorBeforeRequest secretKey) authenticatorAfterResponse

def treatAsErrorHook : Hook :=
  pureHook treatAsErrorBeforeRequest treatAsErrorAfterResponse

def retryHook (decider : RetryDecider) (tr : Transporter) (fuel : Nat) : Hook :=
  { beforeRequest := fun data w => retryBeforeRequest decider tr fuel data w,
    afterResponse := fun data w => retryAfterResponse decider tr fuel data w }

def loggerHook (opts : LoggerOptions) : Hook :=
  { beforeRequest := fun data w =>
      match loggerBeforeRequest opts data with
      | some (d, e, _) => .ok d e w
      | none => .panicked (GoError.msg "runtime panic") w,
    afterResponse := fun data w =>
      match loggerAfterResponse opts data with
      | some (d, e, _) => .ok d e w
      | none => .panicked (GoError.msg "runtime panic") w }

/-! ## Concrete fixtures used by closed theorems -/

def reqA : Request := ⟨"GET", "/v1/items", [("Accept", "json")], none⟩

def reqMut : Request :=
  ⟨"GET", "/v1/items", [("Accept", "json"), ("Authorization", "Bearer k")], none⟩

def resp200 : Response := ⟨200, [], none⟩

def resp500 : Response := ⟨500, [], none⟩

def tr200 : Transporter := fun _ _ => .ok resp200

def tr500 : Transporter := fun _ _ => .ok resp500

def rt500 : RtOracle := fun _ => .ok resp500

def rt200 : RtOracle := fun _ => .ok resp200

def dataMut : InterceptorData := ⟨"id-c1", reqA, reqMut, none, some (GoError.msg "boom")⟩

/-! ## Helper lemmas -/

theorem wrap64_eq_self (x : Int) (h1 : -(2 ^ 63) ≤ x) (h2 : x < 2 ^ 63) : wrap64 x = x := by
  unfold wrap64
  omega

/-! ## Claim theorems -/

/-- C1 counterexample: a retry triggered from the retry component's
before-phase re-issues the current working (mutated) request, not the
pristine snapshot — here the replayed request is `dataMut.request`, which
differs from `dataMut.initialRequest`. -/
theorem c1_before_phase_replays_mutated_request :
    (retryBeforeRequest (retryDeciderAll 2) tr200 2 dataMut emptyWorld).world? =
      some ⟨[("id-c1", 1)], [dataMut.request]⟩ ∧
    dataMut.request ≠ dataMut.initialRequest := by
  exact ⟨rfl, by decide⟩

/-- C4: code-bug evidence — entering the retry before-phase with an error
already on the context and an exhausted budget (`RetryDeciderAll` with
maxRetries = 1) makes `BeforeRequest` panic with that error instead of
returning it, contradicting the `RetryDecider` contract ("returning error
stops the whole interceptorsChain") and the decider's own comment that the
actual error should be returned. -/
theorem c4_retry_before_exhausted_panics :
    retryBeforeRequest (retryDeciderAll 1) tr200 2
      ⟨"id-1", reqA, reqA, none, some (GoError.msg "boom")⟩ emptyWorld =
      RetryOutcome.panicked (GoError.msg "boom") ⟨[("id-1", 1)], []⟩ := by
  rfl

/-- C5 counterexample: with base 4, attempt 1 and cap 1, the returned
duration is the cap 1, which does not lie in the claimed interval
[base·2^1, base·2^1·1.5) = [8, 12). -/
theorem c5_backoff_cap_below_range :
    exponentialBackoff 1 4 1 (fun _ => 0) = some 1 ∧ ¬ ((4 : Int) * 2 ^ 1 ≤ 1) := by
  exact ⟨rfl, by decide⟩

/-- C5 (amended): for attempt k ≥ 1, positive base, any jitter draw j in
[0, base·2^k/2), and no int64 overflow, the pre-cap backoff base·2^k + j
lies in [base·2^k, base·2^k·1.5), and the returned duration is the minimum
of that value and the configured cap. -/
theorem c5_amended_backoff (k : Nat) (base maxB j : Int) (hk : 1 ≤ k) (hbase : 0 < base)
    (hoverflow : base * 2 ^ (k + 1) < 2 ^ 63) (hj0 : 0 ≤ j) (hj1 : 2 * j < base * 2 ^ k) :
    exponentialBackoff (k : Int) base maxB (fun _ => j) =
      some (min (base * 2 ^ k + j) maxB) ∧
    base * 2 ^ k ≤ base * 2 ^ k + j ∧
    2 * (base * 2 ^ k + j) < 3 * (base * 2 ^ k) := by
  have hk0 : ¬((k : Int) ≤ 0) := by
    have : (1 : Int) ≤ (k : Int) := by exact_mod_cast hk
    omega
  have h2B : 2 * (base * 2 ^ k) < 2 ^ 63 := by
    rw [pow_succ] at hoverflow
    linarith
  have hBpos : 0 < base * 2 ^ k := by positivity
  have hpk : (2 : Int) ^ k ≤ base * 2 ^ k :=
    le_mul_of_one_le_left (by positivity) hbase
  have hpklt : (2 : Int) ^ k < 2 ^ 63 := by omega
  have h2k1 : (1 : Int) * 2 ^ 1 ≤ base * 2 ^ k := by
    have hpow : (2 : Int) ^ 1 ≤ 2 ^ k := by
      exact pow_le_pow_right₀ (by norm_num) hk
    have := mul_le_mul hbase hpow (by norm_num) (le_of_lt hbase)
    nlinarith [hpow, hbase]
  have hB2 : 2 ≤ base * 2 ^ k := by linarith
  have hshl : shlOne64 k = 2 ^ k := by
    unfold shlOne64
    have h0 : (0 : Int) ≤ 2 ^ k := by positivity
    exact wrap64_eq_self _ (by omega) hpklt
  have hwrapB : wrap64 (base * 2 ^ k) = base * 2 ^ k :=
    wrap64_eq_self _ (by omega) (by omega)
  have hhalf : ¬ (Int.tdiv (base * 2 ^ k) 2 ≤ 0) := by
    rw [Int.tdiv_eq_ediv] <;> omega
  have hwrapBj : wrap64 (base * 2 ^ k + j) = base * 2 ^ k + j :=
    wrap64_eq_self _ (by omega) (by omega)
  refine ⟨?_, by omega, by omega⟩
  unfold exponentialBackoff
  rw [if_neg hk0]
  simp only [Int.toNat_natCast, hshl, hwrapB, hwrapBj]
  rw [if_neg hhalf]
  congr 1
  split_ifs <;> omega

/-- C5 witness: the amended backoff theorem at k = 1, base = 4, cap = 100,
jitter draw 1: result 9 = min 9 100, with 8 ≤ 9 and 18 < 24. -/
theorem c5_amended_backoff_witness :
    exponentialBackoff ((1 : Nat) : Int) 4 100 (fun _ => 1) =
      some (min ((4 : Int) * 2 ^ 1 + 1) 100) ∧
    (4 : Int) * 2 ^ 1 ≤ 4 * 2 ^ 1 + 1 ∧
    2 * ((4 : Int) * 2 ^ 1 + 1) < 3 * (4 * 2 ^ 1) :=
  c5_amended_backoff 1 4 100 1 (by decide) (by decide) (by decide) (by decide) (by decide)

/-- C8: with the breaker open, the before-phase aborts with the breaker-open
failure when the interceptor was constructed with the abort flag, and
otherwise marks the call context as already-failed and returns no hook
failure; the flag is exactly the one fixed at construction. -/
theorem c8_circuit_breaker_open_before (cb : CircuitBreaker) (abort : Bool)
    (data : InterceptorData) (c : CircuitBreakerInterceptor)
    (hconstruct : newCircuitBreakerInterceptor (some cb) abort = some c)
    (hopen : cb.state = CBState.stateOpen) :
    c.abortOnFailure = abort ∧
    circuitBreakerBeforeRequest c data =
      (if abort then (data, some GoError.errCircuitBreakerOpen)
       else ({ data with error := some GoError.errCircuitBreakerOpen }, none)) := by
  have hc : c = ⟨abort, cb⟩ := by
    simpa [newCircuitBreakerInterceptor] using hconstruct.symm
  subst hc
  refine ⟨rfl, ?_⟩
  unfold circuitBreakerBeforeRequest
  simp only [hopen]
  cases abort <;> simp

/-- C8 witness: the open-breaker theorem applied with the abort flag set. -/
theorem c8_circuit_breaker_open_before_witness :
    (⟨true, ⟨CBState.stateOpen, []⟩⟩ : CircuitBreakerInterceptor).abortOnFailure = true ∧
    circuitBreakerBeforeRequest ⟨true, ⟨CBState.stateOpen, []⟩⟩ dataMut =
      (if true then (dataMut, some GoError.errCircuitBreakerOpen)
       else ({ dataMut with error := some GoError.errCircuitBreakerOpen }, none)) :=
  c8_circuit_breaker_open_before ⟨CBState.stateOpen, []⟩ true dataMut
    ⟨true, ⟨CBState.stateOpen, []⟩⟩ rfl rfl

/-- C10: for every counter-update semantics of the external breaker library,
the circuit breaker's after-phase leaves the breaker (state and counters)
and the context untouched when the context carries no response, and routes
the status code through `Execute` exactly when a response is present. -/
theorem c10_circuit_breaker_after_frame (exec : CircuitBreaker → Int → CircuitBreaker)
    (c : CircuitBreakerInterceptor) (data : InterceptorData) :
    (data.response = none → circuitBreakerAfterResponse exec c data = (c, data, none)) ∧
    (∀ resp, data.response = some resp →
      (circuitBreakerAfterResponse exec c data).1.cb = exec c.cb resp.statusCode) := by
  constructor
  · intro hnone
    unfold circuitBreakerAfterResponse
    rw [hnone]
  · intro resp hsome
    unfold circuitBreakerAfterResponse
    rw [hsome]
    cases data.error with
    | none => rfl
    | some e => cases hc : c.abortOnFailure <;> simp

/-- C10 witness: with no response on the context, a concrete breaker is
returned unchanged. -/
theorem c10_circuit_breaker_after_frame_witness :
    circuitBreakerAfterResponse (fun cb code => { cb with recorded := cb.recorded ++ [code] })
      ⟨false, ⟨CBState.stateClosed, [429]⟩⟩ dataMut =
      (⟨false, ⟨CBState.stateClosed, [429]⟩⟩, dataMut, none) :=
  (c10_circuit_breaker_after_frame _ _ dataMut).1 rfl

/-! ## Retry recursion lemmas -/

theorem getRetryInternalData_sent (w : World) (id : String) :
    (getRetryInternalData w id).2.sent = w.sent := by
  unfold getRetryInternalData
  cases cacheGet w.retryCache id <;> rfl

theorem cacheGet_cacheSet (c : List (String × Nat)) (id : String) (n : Nat) :
    cacheGet (cacheSet c id n) id = some n := by
  simp [cacheGet, cacheSet, List.find?]

theorem getRetryInternalData_count (w : World) (id : String) :
    (getRetryInternalData w id).1 = cacheCount w id + 1 := by
  unfold getRetryInternalData cacheCount
  cases cacheGet w.retryCache id <;> rfl

theorem getRetryInternalData_cacheCount (w : World) (id : String) :
    cacheCount (getRetryInternalData w id).2 id = cacheCount w id + 1 := by
  unfold getRetryInternalData
  cases h : cacheGet w.retryCache id <;>
    simp [cacheCount, cacheGet_cacheSet, h]

theorem retryAfter_sends_initial (decider : RetryDecider) (tr : Transporter) :
    ∀ (fuel : Nat) (data : InterceptorData) (w w' : World),
      (retryAfterResponse decider tr fuel data w).world? = some w' →
      ∃ k, w'.sent = w.sent ++ List.replicate k data.initialRequest := by
  intro fuel
  induction fuel with
  | zero =>
    intro data w w' h
    simp [retryAfterResponse, RetryOutcome.world?] at h
  | succ n ih =>
    intro data w w' h
    rcases hg : getRetryInternalData w data.id with ⟨count, w1⟩
    have hw1 : w1.sent = w.sent := by
      have := getRetryInternalData_sent w data.id
      rw [hg] at this
      exact this
    simp only [retryAfterResponse] at h
    rw [hg] at h
    dsimp only at h
    rcases hd : decider data.response data.error count with ⟨sr, de⟩
    rw [hd] at h
    rcases de with _ | e
    · rcases sr with _ | _
      · simp only [RetryOutcome.world?, Option.some.injEq] at h
        subst h
        exact ⟨0, by simp [hw1]⟩
      · dsimp only [transporterCall] at h
        rcases ht : tr w1.sent.length data.initialRequest with e | resp <;> rw [ht] at h
        · dsimp only at h
          obtain ⟨k, hk⟩ := ih _ _ _ h
          refine ⟨k + 1, ?_⟩
          dsimp only at hk
          rw [hk, hw1]
          simp [List.replicate_succ]
        · dsimp only at h
          split at h
          · obtain ⟨k, hk⟩ := ih _ _ _ h
            refine ⟨k + 1, ?_⟩
            dsimp only at hk
            rw [hk, hw1]
            simp [List.replicate_succ]
          · simp only [RetryOutcome.world?, Option.some.injEq] at h
            subst h
            exact ⟨1, by simp [hw1, List.replicate_succ]⟩
    · rcases sr with _ | _ <;>
        (simp only [RetryOutcome.world?, Option.some.injEq] at h
         subst h
         exact ⟨0, by simp [hw1]⟩)

theorem retryBefore_sends_working (decider : RetryDecider) (tr : Transporter) :
    ∀ (fuel : Nat) (data : InterceptorData) (w w' : World),
      (retryBeforeRequest decider tr fuel data w).world? = some w' →
      ∃ k, w'.sent = w.sent ++ List.replicate k data.request := by
  intro fuel
  induction fuel with
  | zero =>
    intro data w w' h
    simp [retryBeforeRequest, RetryOutcome.world?] at h
  | succ n ih =>
    intro data w w' h
    simp only [retryBeforeRequest] at h
    rcases herr : data.error with _ | e0 <;> rw [herr] at h
    · simp only [RetryOutcome.world?, Option.some.injEq] at h
      subst h
      exact ⟨0, by simp⟩
    · rcases hg : getRetryInternalData w data.id with ⟨count, w1⟩
      have hw1 : w1.sent = w.sent := by
        have := getRetryInternalData_sent w data.id
        rw [hg] at this
        exact this
      rw [hg] at h
      dsimp only at h
      rcases hd : decider data.response (some e0) count with ⟨sr, de⟩
      rw [hd] at h
      rcases sr with _ | _
      · rcases de with _ | e <;>
          (simp only [RetryOutcome.world?, Option.some.injEq] at h
           subst h
           exact ⟨0, by simp [hw1]⟩)
      · dsimp only [transporterCall] at h
        rcases ht : tr w1.sent.length data.request with e | resp <;> rw [ht] at h
        · dsimp only at h
          obtain ⟨k, hk⟩ := ih _ _ _ h
          refine ⟨k + 1, ?_⟩
          dsimp only at hk
          rw [hk, hw1]
          simp [List.replicate_succ]
        · dsimp only at h
          split at h
          · obtain ⟨k, hk⟩ := ih _ _ _ h
            refine ⟨k + 1, ?_⟩
            rw [hk, hw1]
            simp [List.replicate_succ]
          · simp only [RetryOutcome.world?, Option.some.injEq] at h
            subst h
            exact ⟨1, by simp [hw1, List.replicate_succ]⟩

def dataAw : InterceptorData := ⟨"id-a", reqA, reqMut, some resp500, some (GoError.msg "x")⟩

/-- C1 (amended): whenever a retry hook returns, every request it re-issued
through the replay transporter is — for the after-phase — the pristine
`InitialRequest`, and — for the before-phase — the current working request
(which may carry mutations from earlier hook passes). -/
theorem c1_amended_replay_requests (decider : RetryDecider) (tr : Transporter)
    (fuel : Nat) (data : InterceptorData) (w wa wb : World) :
    ((retryAfterResponse decider tr fuel data w).world? = some wa →
      ∃ k, wa.sent = w.sent ++ List.replicate k data.initialRequest) ∧
    ((retryBeforeRequest decider tr fuel data w).world? = some wb →
      ∃ k, wb.sent = w.sent ++ List.replicate k data.request) :=
  ⟨retryAfter_sends_initial decider tr fuel data w wa,
   retryBefore_sends_working decider tr fuel data w wb⟩

/-- C1 witness: a concrete after-phase run replays only the pristine request
and a concrete before-phase run replays only the working request. -/
theorem c1_amended_replay_requests_witness :
    (∃ k, (⟨[("id-a", 2), ("id-a", 1)], [reqA]⟩ : World).sent =
        emptyWorld.sent ++ List.replicate k dataAw.initialRequest) ∧
    (∃ k, (⟨[("id-a", 1)], [reqMut]⟩ : World).sent =
        emptyWorld.sent ++ List.replicate k dataAw.request) :=
  ⟨(c1_amended_replay_requests (retryDeciderAll 2) tr500 3 dataAw emptyWorld
      ⟨[("id-a", 2), ("id-a", 1)], [reqA]⟩ emptyWorld).1 rfl,
   (c1_amended_replay_requests (retryDeciderAll 2) tr200 2 dataAw emptyWorld
      emptyWorld ⟨[("id-a", 1)], [reqMut]⟩).2 rfl⟩

/-- A replay transporter that fails on every invocation: a transport error
or a response with status ≥ 400. -/
def AlwaysFails (tr : Transporter) : Prop :=
  ∀ n req, match tr n req with
    | .error _ => True
    | .ok r => 400 ≤ r.statusCode

theorem retryAfter_exhaust (N : Int) (tr : Transporter) (htr : AlwaysFails tr) :
    ∀ (fuel : Nat) (data : InterceptorData) (w : World),
      data.error.isSome = true →
      (N - (cacheCount w data.id : Int)).toNat + 1 ≤ fuel →
      ∃ d e w', retryAfterResponse (retryDeciderAll N) tr fuel data w = .ok d (some e) w' ∧
        w'.sent.length = w.sent.length + (N - ((cacheCount w data.id : Int) + 1)).toNat := by
  intro fuel
  induction fuel with
  | zero =>
    intro data w herr hf
    omega
  | succ n ih =>
    intro data w herr hf
    obtain ⟨e0, herr0⟩ := Option.isSome_iff_exists.mp herr
    rcases hg : getRetryInternalData w data.id with ⟨count, w1⟩
    have hw1sent : w1.sent = w.sent := by
      have := getRetryInternalData_sent w data.id
      rw [hg] at this
      exact this
    have hcount : count = cacheCount w data.id + 1 := by
      have := getRetryInternalData_count w data.id
      rw [hg] at this
      exact this
    have hw1count : cacheCount w1 data.id = cacheCount w data.id + 1 := by
      have := getRetryInternalData_cacheCount w data.id
      rw [hg] at this
      exact this
    have hwc : cacheCount ⟨w1.retryCache, w1.sent ++ [data.initialRequest]⟩ data.id =
        cacheCount w data.id + 1 := hw1count
    simp only [retryAfterResponse]
    rw [hg]
    dsimp only
    by_cases hNc : N ≤ (count : Int)
    · have hdec : retryDeciderAll N data.response data.error count = (false, some e0) := by
        simp [retryDeciderAll, herr0, hNc]
      rw [hdec]
      refine ⟨data, e0, w1, rfl, ?_⟩
      rw [hw1sent]
      omega
    · have hdec : retryDeciderAll N data.response data.error count = (true, none) := by
        simp [retryDeciderAll, herr0, hNc]
      rw [hdec]
      dsimp only [transporterCall]
      rcases ht : tr w1.sent.length data.initialRequest with e | resp <;> dsimp only
      · have hrec := ih { data with response := none, error := some e }
          ⟨w1.retryCache, w1.sent ++ [data.initialRequest]⟩ rfl (by
            dsimp only
            rw [hwc]
            omega)
        obtain ⟨d, e', w', heq, hlen⟩ := hrec
        refine ⟨d, e', w', heq, ?_⟩
        dsimp only at hlen
        rw [hwc] at hlen
        rw [hlen]
        simp only [List.length_append, List.length_cons, List.length_nil, hw1sent]
        omega
      · have hfail := htr w1.sent.length data.initialRequest
        rw [ht] at hfail
        dsimp only at hfail
        rw [if_pos hfail]
        have hrec := ih { data with response := some resp }
          ⟨w1.retryCache, w1.sent ++ [data.initialRequest]⟩ (by simp [herr0]) (by
            dsimp only
            rw [hwc]
            omega)
        obtain ⟨d, e', w', heq, hlen⟩ := hrec
        refine ⟨d, e', w', heq, ?_⟩
        dsimp only at hlen
        rw [hwc] at hlen
        rw [hlen]
        simp only [List.length_append, List.length_cons, List.length_nil, hw1sent]
        omega

theorem errorDetectorAll_failing (data : InterceptorData) (resp : Response)
    (hresp : data.response = some resp) (hcode : 400 ≤ resp.statusCode) :
    ∃ e d', errorDetectorAllIsError data = (some e, d') ∧ d'.id = data.id := by
  unfold errorDetectorAllIsError
  rw [hresp]
  dsimp only
  rw [if_pos hcode]
  cases hb : resp.body with
  | none => exact ⟨_, _, rfl, rfl⟩
  | some bc =>
    dsimp only
    split_ifs <;> exact ⟨_, _, rfl, rfl⟩

theorem treatAsErrorAfter_failing (data : InterceptorData) (resp : Response)
    (hresp : data.response = some resp) (hcode : 400 ≤ resp.statusCode) :
    ∃ e d', treatAsErrorAfterResponse data = (d', none) ∧ d'.error = some e ∧
      d'.id = data.id := by
  obtain ⟨e, d', heq, hid⟩ := errorDetectorAll_failing data resp hresp hcode
  refine ⟨e, { d' with error := some e }, ?_, rfl, hid⟩
  unfold treatAsErrorAfterResponse
  rw [heq]

/-- C2 (amended): for the default decision policy with max-attempts N ≥ 1,
when the initial underlying attempt yields a status ≥ 400 response (which
the error classifier turns into a context error) and every replay fails
(transport error or status ≥ 400), the chain performs exactly N total
attempts — the single underlying call plus N − 1 replays — and surfaces a
terminal failure. -/
theorem c2_amended_chain (N : Int) (tr : Transporter) (rt : RtOracle)
    (req : Request) (id : String) (w : World) (r0 : Response)
    (hN : 1 ≤ N) (hrt : rt req = .ok r0) (hr0 : 400 ≤ r0.statusCode)
    (htr : AlwaysFails tr) (hcache : cacheCount w id = 0) :
    ∃ e d w',
      roundTripWithID [treatAsErrorHook, retryHook (retryDeciderAll N) tr (N.toNat + 1)]
        rt req id w = ⟨.failure e, some d, w', [req]⟩ ∧
      (w'.sent.length : Int) = (w.sent.length : Int) + (N - 1) := by
  obtain ⟨e1, d3, htreat, herr3, hid3⟩ :=
    treatAsErrorAfter_failing ⟨id, req, req, some r0, none⟩ r0 rfl hr0
  have hid : d3.id = id := hid3
  obtain ⟨d, e', w', hret, hlen⟩ :=
    retryAfter_exhaust N tr htr (N.toNat + 1) d3 w
      (by rw [herr3]; rfl)
      (by rw [hid, hcache]; omega)
  refine ⟨e', d, w', ?_, ?_⟩
  · have hbefore : runBefore [treatAsErrorHook, retryHook (retryDeciderAll N) tr (N.toNat + 1)]
        ⟨id, req, req, none, none⟩ w = .proceed ⟨id, req, req, none, none⟩ w := rfl
    unfold roundTripWithID
    dsimp only
    rw [hbefore]
    dsimp only
    rw [hrt]
    dsimp only
    have hafter1 : treatAsErrorHook.afterResponse ⟨id, req, req, some r0, none⟩ w =
        .ok d3 none w := by
      dsimp only [treatAsErrorHook, pureHook]
      rw [htreat]
    simp only [runAfter]
    rw [hafter1]
    dsimp only
    have hafter2 : (retryHook (retryDeciderAll N) tr (N.toNat + 1)).afterResponse d3 w =
        .ok d (some e') w' := hret
    rw [hafter2]
  · rw [hid, hcache] at hlen
    omega

def c2run : ChainOutcome :=
  roundTripWithID [treatAsErrorHook, retryHook (retryDeciderAll 2) tr500 3]
    rt500 reqA "id-c2" emptyWorld

/-- C2 counterexample: with max-attempts N = 2 under persistent status-500
failure, the chain performs 2 total attempts (1 underlying call + 1 replay),
not N + 1 = 3, before surfacing the terminal failure. -/
theorem c2_attempts_equal_n_not_n_plus_one :
    c2run.rtLog.length + c2run.world.sent.length = 2 ∧
    c2run.result = ChainResult.failure (GoError.msg "non-2xx response: 500") ∧
    (2 : Nat) ≠ 2 + 1 := by
  refine ⟨rfl, rfl, by decide⟩

/-- C2 witness: the amended attempt-count theorem at N = 3 with an
always-500 transport: 1 underlying call plus 2 replays. -/
theorem c2_amended_chain_witness :
    ∃ e d w',
      roundTripWithID [treatAsErrorHook, retryHook (retryDeciderAll 3) tr500 ((3 : Int).toNat + 1)]
        rt500 reqA "id-w2" emptyWorld = ⟨.failure e, some d, w', [reqA]⟩ ∧
      (w'.sent.length : Int) = (emptyWorld.sent.length : Int) + (3 - 1) :=
  c2_amended_chain 3 tr500 rt500 reqA "id-w2" emptyWorld resp500 (by norm_num) rfl
    (by norm_num [resp500]) (fun n req => by dsimp [AlwaysFails, tr500]; norm_num [resp500]) rfl

/-! ## Logger frame lemmas -/

theorem loggerBefore_eq (opts : LoggerOptions) (data : InterceptorData)
    (out : InterceptorData × Option GoError × String)
    (h : loggerBeforeRequest opts data = some out) : out.1 = data := by
  unfold loggerBeforeRequest at h
  by_cases hskip : (opts.skipPaths.any fun p => p.isPrefixOf data.request.urlPath) = true
  · rw [if_pos hskip] at h
    simp only [Option.some.injEq] at h
    subst h
    rfl
  · rw [if_neg hskip] at h
    dsimp only at h
    rcases hscrut : (if opts.logBody = true then data.request.body else none) with _ | bc <;>
      rw [hscrut] at h <;> dsimp only at h
    · simp only [Option.some.injEq] at h
      subst h
      rfl
    · rcases htr2 : truncateForLog bc opts.maxBodyLogSize with _ | ⟨logged, trunc⟩ <;>
        rw [htr2] at h <;> dsimp only at h
      · exact absurd h (by simp)
      · simp only [Option.some.injEq] at h
        subst h
        have hbody : data.request.body = some bc := by
          by_cases hlb : opts.logBody = true
          · rw [if_pos hlb] at hscrut
            exact hscrut
          · rw [if_neg hlb] at hscrut
            cases hscrut
        dsimp only
        rw [← hbody]

theorem loggerAfter_eq (opts : LoggerOptions) (data : InterceptorData)
    (out : InterceptorData × Option GoError × String)
    (h : loggerAfterResponse opts data = some out) : out.1 = data := by
  unfold loggerAfterResponse at h
  by_cases hskip : (opts.skipPaths.any fun p => p.isPrefixOf data.request.urlPath) = true
  · rw [if_pos hskip] at h
    simp only [Option.some.injEq] at h
    subst h
    rfl
  · rw [if_neg hskip] at h
    rcases hresp : data.response with _ | resp <;> rw [hresp] at h <;> dsimp only at h
    · by_cases hflag : (opts.logBasicInfo = true ∨ opts.logHeaders = true ∨ opts.logBody = true)
      · rw [if_pos hflag] at h
        cases h
      · rw [if_neg hflag] at h
        simp only [Option.some.injEq] at h
        subst h
        rfl
    · rcases hscrut : (if opts.logBody = true then resp.body else none) with _ | bc <;>
        rw [hscrut] at h <;> dsimp only at h
      · simp only [Option.some.injEq] at h
        subst h
        rfl
      · rcases htr2 : truncateForLog bc opts.maxBodyLogSize with _ | ⟨logged, trunc⟩ <;>
          rw [htr2] at h <;> dsimp only at h
        · exact absurd h (by simp)
        · simp only [Option.some.injEq] at h
          subst h
          have hbody : resp.body = some bc := by
            by_cases hlb : opts.logBody = true
            · rw [if_pos hlb] at hscrut
              exact hscrut
            · rw [if_neg hlb] at hscrut
              cases hscrut
          dsimp only
          rw [← hbody, ← hresp]

/-- C9: the logger's phases never alter the call context they return — in
particular the request-body and response-body content readable by downstream
hooks and the caller is byte-for-byte the content present before the phase
ran — for every configuration built by `NewLogger` (any truncation limit,
flag combination and skip lists) and every call context, whenever the phase
completes without a runtime panic. -/
theorem c9_logger_preserves_bodies (opts : LoggerOptions) (data : InterceptorData) :
    (∀ out, loggerBeforeRequest (newLogger opts) data = some out →
      out.1 = data ∧ out.1.request.body = data.request.body) ∧
    (∀ out, loggerAfterResponse (newLogger opts) data = some out →
      out.1 = data ∧ out.1.response.map Response.body = data.response.map Response.body) := by
  constructor
  · intro out h
    have heq := loggerBefore_eq (newLogger opts) data out h
    exact ⟨heq, by rw [heq]⟩
  · intro out h
    have heq := loggerAfter_eq (newLogger opts) data out h
    exact ⟨heq, by rw [heq]⟩

def optsW9 : LoggerOptions := ⟨false, false, true, 4, [], []⟩

def dataW9 : InterceptorData :=
  ⟨"w9", reqA, ⟨"POST", "/v1/items", [], some "hello"⟩, some ⟨200, [], some "okbody"⟩, none⟩

/-- C9 witness: a configuration that logs and truncates a 5-byte request
body at 4 bytes still returns the context with the body intact. -/
theorem c9_logger_preserves_bodies_witness :
    (dataW9, (none : Option GoError), "[w9] REQ BODY: hell [truncated...]\n").1 = dataW9 ∧
    (dataW9, (none : Option GoError), "[w9] REQ BODY: hell [truncated...]\n").1.request.body =
      dataW9.request.body :=
  (c9_logger_preserves_bodies optsW9 dataW9).1
    (dataW9, none, "[w9] REQ BODY: hell [truncated...]\n") rfl

def jsonNotFound : String := "\x7b\"message\":\x7b\"detail\":\"not found\"\x7d\x7d"

/-- C6: for every response with status ≥ 400 and a readable body, the error
detector surfaces exactly the spec's priority selection over the decoded
template — nested message.detail, then reason, then error, then the
"non-2xx response: code" fallback (which also covers unparsable bodies,
since the unmarshal error is ignored and the template stays zero).
Concretely, status 404 with body with nested detail "not found" surfaces
"not found", and status 500 with the unparsable body "oops" surfaces
"non-2xx response: 500". -/
theorem c6_error_classifier (data : InterceptorData) (resp : Response) (bodyContent : String)
    (hresp : data.response = some resp) (hcode : 400 ≤ resp.statusCode)
    (hbody : resp.body = some bodyContent) :
    (errorDetectorAllIsError data).1 =
      some (GoError.msg (specSurfacedText resp.statusCode (unmarshalErrorTemplate bodyContent))) ∧
    (errorDetectorAllIsError ⟨"i", reqA, reqA, some ⟨404, [], some jsonNotFound⟩, none⟩).1 =
      some (GoError.msg "not found") ∧
    (errorDetectorAllIsError ⟨"i", reqA, reqA, some ⟨500, [], some "oops"⟩, none⟩).1 =
      some (GoError.msg "non-2xx response: 500") := by
  refine ⟨?_, by rfl, by rfl⟩
  unfold errorDetectorAllIsError specSurfacedText
  rw [hresp]
  dsimp only
  rw [if_pos hcode, hbody]
  dsimp only
  split_ifs <;> rfl

def bodyW6 : String := "\x7b\"reason\":\"teapot\"\x7d"

def respW6 : Response := ⟨418, [], some bodyW6⟩

def dataW6 : InterceptorData := ⟨"w6", reqA, reqA, some respW6, none⟩

/-- C6 witness: the classifier theorem at status 418 with a body whose
reason field is "teapot". -/
theorem c6_error_classifier_witness :
    (errorDetectorAllIsError dataW6).1 =
      some (GoError.msg (specSurfacedText respW6.statusCode (unmarshalErrorTemplate bodyW6))) ∧
    (errorDetectorAllIsError ⟨"i", reqA, reqA, some ⟨404, [], some jsonNotFound⟩, none⟩).1 =
      some (GoError.msg "not found") ∧
    (errorDetectorAllIsError ⟨"i", reqA, reqA, some ⟨500, [], some "oops"⟩, none⟩).1 =
      some (GoError.msg "non-2xx response: 500") :=
  c6_error_classifier dataW6 respW6 bodyW6 rfl (by decide) rfl

/-! ## Pristine-request preservation (C3) -/

/-- A hook phase never changes the pristine `InitialRequest` field. -/
def PreservesInitial (f : InterceptorData → World → RetryOutcome) : Prop :=
  ∀ data w d' e w', f data w = .ok d' e w' → d'.initialRequest = data.initialRequest

theorem retryBefore_preserves_initial (decider : RetryDecider) (tr : Transporter) :
    ∀ fuel, PreservesInitial (retryBeforeRequest decider tr fuel) := by
  intro fuel
  induction fuel with
  | zero =>
    intro data w d' e w' h
    simp [retryBeforeRequest] at h
  | succ n ih =>
    intro data w d' e w' h
    simp only [retryBeforeRequest] at h
    rcases herr : data.error with _ | e0 <;> rw [herr] at h
    · simp only [RetryOutcome.ok.injEq] at h
      obtain ⟨rfl, -, -⟩ := h
      rfl
    · rcases hg : getRetryInternalData w data.id with ⟨count, w1⟩
      rw [hg] at h
      dsimp only at h
      rcases hd : decider data.response (some e0) count with ⟨sr, de⟩
      rw [hd] at h
      rcases sr with _ | _
      · rcases de with _ | e1
        · simp only [RetryOutcome.ok.injEq] at h
          obtain ⟨rfl, -, -⟩ := h
          rfl
        · simp at h
      · dsimp only [transporterCall] at h
        rcases ht : tr w1.sent.length data.request with e1 | resp <;> rw [ht] at h <;> dsimp only at h
        · exact ih { data with error := some e1 } _ d' e w' h
        · split at h
          · exact ih data _ d' e w' h
          · simp only [RetryOutcome.ok.injEq] at h
            obtain ⟨rfl, -, -⟩ := h
            rfl

theorem retryAfter_preserves_initial (decider : RetryDecider) (tr : Transporter) :
    ∀ fuel, PreservesInitial (retryAfterResponse decider tr fuel) := by
  intro fuel
  induction fuel with
  | zero =>
    intro data w d' e w' h
    simp [retryAfterResponse] at h
  | succ n ih =>
    intro data w d' e w' h
    simp only [retryAfterResponse] at h
    rcases hg : getRetryInternalData w data.id with ⟨count, w1⟩
    rw [hg] at h
    dsimp only at h
    rcases hd : decider data.response data.error count with ⟨sr, de⟩
    rw [hd] at h
    rcases de with _ | e1
    · rcases sr with _ | _
      · simp only [RetryOutcome.ok.injEq] at h
        obtain ⟨rfl, -, -⟩ := h
        rfl
      · dsimp only [transporterCall] at h
        rcases ht : tr w1.sent.length data.initialRequest with e1 | resp <;> rw [ht] at h <;>
          dsimp only at h
        · exact ih { data with response := none, error := some e1 } _ d' e w' h
        · split at h
          · exact ih { data with response := some resp } _ d' e w' h
          · simp only [RetryOutcome.ok.injEq] at h
            obtain ⟨rfl, -, -⟩ := h
            rfl
    · rcases sr with _ | _ <;>
        (simp only [RetryOutcome.ok.injEq] at h
         obtain ⟨rfl, -, -⟩ := h
         rfl)

theorem errorDetectorAll_initial (data : InterceptorData) :
    (errorDetectorAllIsError data).2.initialRequest = data.initialRequest := by
  unfold errorDetectorAllIsError
  split
  · split_ifs
    · split
      · dsimp only
        split_ifs <;> rfl
      · rfl
    · rfl
  · rfl

theorem treatAsErrorAfter_initial (data : InterceptorData) :
    (treatAsErrorAfterResponse data).1.initialRequest = data.initialRequest := by
  unfold treatAsErrorAfterResponse
  rcases he : errorDetectorAllIsError data with ⟨eo, d1⟩
  have hd1 : d1.initialRequest = data.initialRequest := by
    have := errorDetectorAll_initial data
    rw [he] at this
    exact this
  dsimp only
  rcases eo with _ | err <;> dsimp only <;> exact hd1

/-- A hook whose two phases both preserve the pristine request. -/
def HookPreservesInitial (h : Hook) : Prop :=
  PreservesInitial h.beforeRequest ∧ PreservesInitial h.afterResponse

theorem authenticatorHook_preserves (key : String) :
    HookPreservesInitial (authenticatorHook key) := by
  constructor <;> intro data w d' e w' h <;>
    (simp only [authenticatorHook, pureHook, RetryOutcome.ok.injEq] at h
     obtain ⟨h1, -, -⟩ := h
     rw [← h1]
     rfl)

theorem treatAsErrorHook_preserves : HookPreservesInitial treatAsErrorHook := by
  constructor <;> intro data w d' e w' h <;>
    simp only [treatAsErrorHook, pureHook, RetryOutcome.ok.injEq] at h
  · obtain ⟨h1, -, -⟩ := h
    rw [← h1]
    rfl
  · obtain ⟨h1, -, -⟩ := h
    rw [← h1]
    exact treatAsErrorAfter_initial data

theorem loggerHook_preserves (opts : LoggerOptions) :
    HookPreservesInitial (loggerHook opts) := by
  constructor <;> intro data w d' e w' h <;> dsimp only [loggerHook] at h
  · rcases hl : loggerBeforeRequest opts data with _ | out <;> rw [hl] at h
    · simp at h
    · rcases out with ⟨od, oe, olg⟩
      dsimp only at h
      simp only [RetryOutcome.ok.injEq] at h
      obtain ⟨h1, -, -⟩ := h
      have heq := loggerBefore_eq opts data ⟨od, oe, olg⟩ hl
      dsimp only at heq
      rw [← h1, heq]
  · rcases hl : loggerAfterResponse opts data with _ | out <;> rw [hl] at h
    · simp at h
    · rcases out with ⟨od, oe, olg⟩
      dsimp only at h
      simp only [RetryOutcome.ok.injEq] at h
      obtain ⟨h1, -, -⟩ := h
      have heq := loggerAfter_eq opts data ⟨od, oe, olg⟩ hl
      dsimp only at heq
      rw [← h1, heq]

theorem retryHook_preserves (decider : RetryDecider) (tr : Transporter) (fuel : Nat) :
    HookPreservesInitial (retryHook decider tr fuel) :=
  ⟨retryBefore_preserves_initial decider tr fuel,
   retryAfter_preserves_initial decider tr fuel⟩

def BeforeResult.data? : BeforeResult → Option InterceptorData
  | .proceed d _ => some d
  | .shortCircuit _ d _ => some d
  | .aborted _ d _ => some d
  | .panicked _ _ => none
  | .outOfFuel => none

def AfterResult.data? : AfterResult → Option InterceptorData
  | .done d _ => some d
  | .aborted _ d _ => some d
  | .panicked _ _ => none
  | .outOfFuel => none

theorem runBefore_preserves_initial :
    ∀ (hooks : List Hook), (∀ h ∈ hooks, PreservesInitial h.beforeRequest) →
    ∀ data w d', (runBefore hooks data w).data? = some d' →
      d'.initialRequest = data.initialRequest := by
  intro hooks
  induction hooks with
  | nil =>
    intro hh data w d' h
    simp only [runBefore, BeforeResult.data?, Option.some.injEq] at h
    subst h
    rfl
  | cons hk rest ih =>
    intro hh data w d' h
    simp only [runBefore] at h
    rcases hb : hk.beforeRequest data w with ⟨d1, e1, w1⟩ | ⟨e1, w1⟩ | _ <;> rw [hb] at h <;>
      dsimp only at h
    · have hpres : d1.initialRequest = data.initialRequest :=
        (hh hk (List.mem_cons_self hk rest)) data w d1 e1 w1 hb
      rcases e1 with _ | e2
      · rcases hr : d1.response with _ | r <;> rw [hr] at h <;> dsimp only at h
        · have := ih (fun h hm => hh h (List.mem_cons_of_mem hk hm)) d1 w1 d' h
          rw [this, hpres]
        · simp only [BeforeResult.data?, Option.some.injEq] at h
          subst h
          exact hpres
      · simp only [BeforeResult.data?, Option.some.injEq] at h
        subst h
        exact hpres
    · simp [BeforeResult.data?] at h
    · simp [BeforeResult.data?] at h

theorem runAfter_preserves_initial :
    ∀ (hooks : List Hook), (∀ h ∈ hooks, PreservesInitial h.afterResponse) →
    ∀ data w d', (runAfter hooks data w).data? = some d' →
      d'.initialRequest = data.initialRequest := by
  intro hooks
  induction hooks with
  | nil =>
    intro hh data w d' h
    simp only [runAfter, AfterResult.data?, Option.some.injEq] at h
    subst h
    rfl
  | cons hk rest ih =>
    intro hh data w d' h
    simp only [runAfter] at h
    rcases hb : hk.afterResponse data w with ⟨d1, e1, w1⟩ | ⟨e1, w1⟩ | _ <;> rw [hb] at h <;>
      dsimp only at h
    · have hpres : d1.initialRequest = data.initialRequest :=
        (hh hk (List.mem_cons_self hk rest)) data w d1 e1 w1 hb
      rcases e1 with _ | e2
      · have := ih (fun h hm => hh h (List.mem_cons_of_mem hk hm)) d1 w1 d' h
        rw [this, hpres]
      · simp only [AfterResult.data?, Option.some.injEq] at h
        subst h
        exact hpres
    · simp [AfterResult.data?] at h
    · simp [AfterResult.data?] at h

theorem roundTripWithID_preserves_initial (hooks : List Hook)
    (hh : ∀ h ∈ hooks, HookPreservesInitial h) (rt : RtOracle) (req : Request)
    (id : String) (w : World) (d : InterceptorData)
    (h : (roundTripWithID hooks rt req id w).finalData = some d) :
    d.initialRequest = req := by
  have hhb : ∀ hk ∈ hooks, PreservesInitial hk.beforeRequest := fun hk hm => (hh hk hm).1
  have hha : ∀ hk ∈ hooks, PreservesInitial hk.afterResponse := fun hk hm => (hh hk hm).2
  unfold roundTripWithID at h
  dsimp only at h
  rcases hb : runBefore hooks ⟨id, req, req, none, none⟩ w with
      ⟨d1, w1⟩ | ⟨r, d1, w1⟩ | ⟨e1, d1, w1⟩ | ⟨e1, w1⟩ | _ <;> rw [hb] at h <;> dsimp only at h
  · have hd1 : d1.initialRequest = req := by
      have hpre := runBefore_preserves_initial hooks hhb ⟨id, req, req, none, none⟩ w d1
      rw [hb] at hpre
      exact hpre (by rfl)
    rcases herr : d1.error with _ | e2 <;> rw [herr] at h <;> dsimp only at h
    · rcases hrt : rt d1.request with e3 | resp <;> rw [hrt] at h <;> dsimp only at h
      · simp only [Option.some.injEq] at h
        subst h
        exact hd1
      · have hd2pre := runAfter_preserves_initial hooks hha
          ⟨d1.id, d1.initialRequest, d1.request, some resp, none⟩ w1
        rcases ha : runAfter hooks ⟨d1.id, d1.initialRequest, d1.request, some resp, none⟩ w1 with
            ⟨d2, w2⟩ | ⟨e4, d2, w2⟩ | ⟨e4, w2⟩ | _ <;> rw [ha] at h <;> rw [ha] at hd2pre <;>
          dsimp only at h
        · have hd2 : d2.initialRequest = d1.initialRequest := hd2pre d2 (by rfl)
          rcases herr2 : d2.error with _ | e5 <;> rw [herr2] at h <;> dsimp only at h <;>
            simp only [Option.some.injEq] at h <;> subst h <;> rw [hd2, hd1]
        · have hd2 : d2.initialRequest = d1.initialRequest := hd2pre d2 (by rfl)
          simp only [Option.some.injEq] at h
          subst h
          rw [hd2, hd1]
        · cases h
        · cases h
    · simp only [Option.some.injEq] at h
      subst h
      exact hd1
  · have hd1 : d1.initialRequest = req := by
      have hpre := runBefore_preserves_initial hooks hhb ⟨id, req, req, none, none⟩ w d1
      rw [hb] at hpre
      exact hpre (by rfl)
    simp only [Option.some.injEq] at h
    subst h
    exact hd1
  · have hd1 : d1.initialRequest = req := by
      have hpre := runBefore_preserves_initial hooks hhb ⟨id, req, req, none, none⟩ w d1
      rw [hb] at hpre
      exact hpre (by rfl)
    simp only [Option.some.injEq] at h
    subst h
    exact hd1
  · cases h
  · cases h

theorem runBefore_append (hs1 hs2 : List Hook) (data : InterceptorData) (w : World) :
    runBefore (hs1 ++ hs2) data w =
      match runBefore hs1 data w with
      | .proceed d w1 => runBefore hs2 d w1
      | r => r := by
  induction hs1 generalizing data w with
  | nil => rfl
  | cons hk rest ih =>
    simp only [List.cons_append, runBefore]
    rcases hb : hk.beforeRequest data w with ⟨d1, e1, w1⟩ | ⟨e1, w1⟩ | _ <;> dsimp only <;>
      try rfl
    rcases e1 with _ | e2 <;> dsimp only <;> try rfl
    rcases hr : d1.response with _ | r <;> dsimp only <;> try rfl
    exact ih d1 w1

/-- C7: if, after some prefix of before hooks, a hook attaches a response to
the call context (returning no failure), the chain short-circuits: the
call's result is that response, the underlying transport is never invoked
(the transport log is empty), and the remaining before hooks are skipped —
the outcome is the same for every suffix of hooks. -/
theorem c7_short_circuit (pre post : List Hook) (hk : Hook) (rt : RtOracle)
    (req : Request) (id : String) (w : World)
    (d1 : InterceptorData) (w1 : World) (d2 : InterceptorData) (w2 : World) (r : Response)
    (hpre : runBefore pre ⟨id, req, req, none, none⟩ w = .proceed d1 w1)
    (hhook : hk.beforeRequest d1 w1 = .ok d2 none w2)
    (hresp : d2.response = some r) :
    roundTripWithID (pre ++ hk :: post) rt req id w =
      ⟨.success r, some d2, w2, []⟩ := by
  unfold roundTripWithID
  dsimp only
  rw [runBefore_append]
  rw [hpre]
  dsimp only
  simp only [runBefore]
  rw [hhook]
  dsimp only
  rw [hresp]

def cacheHook : Hook :=
  { beforeRequest := fun d w => .ok { d with response := some resp200 } none w,
    afterResponse := fun d w => .ok d none w }

def bombHook : Hook :=
  { beforeRequest := fun _ w => .panicked (GoError.msg "must not run") w,
    afterResponse := fun _ w => .panicked (GoError.msg "must not run") w }

/-- C7 witness: a hook attaching a cached response short-circuits past a
hook that would panic if it ran, with no transport invocation. -/
theorem c7_short_circuit_witness :
    roundTripWithID [cacheHook, bombHook] rt500 reqA "id-w7" emptyWorld =
      ⟨.success resp200, some ⟨"id-w7", reqA, reqA, some resp200, none⟩, emptyWorld, []⟩ :=
  c7_short_circuit [] [bombHook] cacheHook rt500 reqA "id-w7" emptyWorld
    ⟨"id-w7", reqA, reqA, none, none⟩ emptyWorld
    ⟨"id-w7", reqA, reqA, some resp200, none⟩ emptyWorld resp200 rfl rfl rfl

/-! ## Aliased-body model of the chain (`http.Request.Clone` shares the Body reader)

Go's `http.Request.Clone` deep-copies the URL and the header map but copies
the `Body` field shallowly: the pristine snapshot and the working request
hold the same `io.ReadCloser`.  To model that sharing, this layer keeps each
reader's remaining readable content in a cell store inside the world and
lets requests hold a reference into it; `io.ReadAll` drains a cell and
`io.NopCloser(bytes.NewReader(b))` allocates a fresh one, and a transport
send drains the sent request's reader. -/

/-- Model of `*http.Request` with the `Body` reader held by reference, so
two requests can share one reader. -/
structure RequestA where
  method : String
  urlPath : String
  headers : List (String × String)
  bodyRef : Option Nat
deriving Repr, DecidableEq

/-- Call context over reference-body requests.  Responses keep value bodies:
each attempt's response arrives with a fresh reader of its own, and no claim
here concerns response-reader sharing. -/
structure InterceptorDataA where
  id : String
  initialRequest : RequestA
  request : RequestA
  response : Option Response
  error : Option GoError
deriving Repr, DecidableEq

/-- World for the aliased model: reader cells (reference ↦ remaining
readable content) with a fresh-reference counter, plus the retry attempt
cache and the replay log. -/
structure AWorld where
  cells : List (Nat × String)
  next : Nat
  retryCache : List (String × Nat)
  sent : List RequestA
deriving Repr, DecidableEq

def cellGet (cs : List (Nat × String)) (r : Nat) : String :=
  (((cs.find? (fun p => p.1 == r))).map (fun p => p.2)).getD ""

def cellSet (cs : List (Nat × String)) (r : Nat) (s : String) : List (Nat × String) :=
  (r, s) :: cs

/-- The content still readable from a request's body reader (empty for a nil
body or a drained reader). -/
def readableBody (w : AWorld) (req : RequestA) : String :=
  match req.bodyRef with
  | some r => cellGet w.cells r
  | none => ""

/-- `io.ReadAll` on a reader: return the remaining content, leaving the
reader exhausted. -/
def readerReadAll (w : AWorld) (r : Nat) : String × AWorld :=
  (cellGet w.cells r, { w with cells := cellSet w.cells r "" })

/-- `io.NopCloser(bytes.NewReader(b))`: a fresh reader over the bytes. -/
def readerAlloc (w : AWorld) (s : String) : Nat × AWorld :=
  (w.next, { w with cells := cellSet w.cells w.next s, next := w.next + 1 })

/-- A transport send consumes the sent request's body reader. -/
def drainReader (w : AWorld) (ref : Option Nat) : AWorld :=
  match ref with
  | some r => { w with cells := cellSet w.cells r "" }
  | none => w

/-- `http.Request.Clone` (transport.go:40): the value fields and the header
map are deep-copied, but the `Body` field is copied shallowly — the clone
and the original share the same reader reference. -/
def requestCloneA (req : RequestA) : RequestA :=
  { method := req.method, urlPath := req.urlPath, headers := req.headers,
    bodyRef := req.bodyRef }

inductive AOutcome where
  | ok (data : InterceptorDataA) (err : Option GoError) (w : AWorld)
  | panicked (e : GoError) (w : AWorld)
  | outOfFuel
deriving Repr, DecidableEq

/-- An interceptor's two-hook contract over the aliased model. -/
structure HookA where
  beforeRequest : InterceptorDataA → AWorld → AOutcome
  afterResponse : InterceptorDataA → AWorld → AOutcome

/-- `Authenticator.BeforeRequest` over the aliased model. -/
def authenticatorBeforeRequestA (secretKey : String) (data : InterceptorDataA) :
    InterceptorDataA × Option GoError :=
  ({ data with request :=
      { data.request with headers :=
          (headerSet data.request.headers "Authorization" ("Bearer " ++ secretKey)) } }, none)

def authenticatorHookA (secretKey : String) : HookA :=
  { beforeRequest := fun data w => .ok (authenticatorBeforeRequestA secretKey data).1 none w,
    afterResponse := fun data w => .ok data none w }

/-- `Logger.BeforeRequest` over the aliased model: a logged body is read
through the SHARED reader (draining it) and only the working request's
`Body` field is replaced by a fresh reader (transport.go:157-161); the
pristine snapshot keeps its reference to the now-drained reader. -/
def loggerBeforeRequestA (opts : LoggerOptions) (data : InterceptorDataA) (w : AWorld) :
    Option (InterceptorDataA × Option GoError × String × AWorld) :=
  if opts.skipPaths.any (fun p => p.isPrefixOf data.request.urlPath) then
    some (data, none, "", w)
  else
    let basic :=
      if opts.logBasicInfo then
        "[" ++ data.id ++ "] --> " ++ data.request.method ++ " " ++ data.request.urlPath ++ "\n"
      else ""
    let headerPart :=
      if opts.logHeaders then buildHeaderLogs opts "REQ" data.id data.request.headers
      else ""
    match (if opts.logBody then data.request.bodyRef else none) with
    | some r =>
      let (body, w1) := readerReadAll w r
      let (r2, w2) := readerAlloc w1 body
      let data' : InterceptorDataA :=
        { data with request := { data.request with bodyRef := some r2 } }
      match truncateForLog body opts.maxBodyLogSize with
      | none => none
      | some (logged, truncated) =>
        let bodyLine := "[" ++ data.id ++ "] REQ BODY: " ++ logged ++
          (if truncated then " [truncated...]" else "") ++ "\n"
        some (data', none, basic ++ headerPart ++ bodyLine, w2)
    | none => some (data, none, basic ++ headerPart, w)

/-- `Logger.AfterResponse` over the aliased model (responses keep value
bodies, so this is the value-level logic over `InterceptorDataA`). -/
def loggerAfterResponseA (opts : LoggerOptions) (data : InterceptorDataA) :
    Option (InterceptorDataA × Option GoError × String) :=
  if opts.skipPaths.any (fun p => p.isPrefixOf data.request.urlPath) then
    some (data, none, "")
  else
    match data.response with
    | none =>
      if opts.logBasicInfo ∨ opts.logHeaders ∨ opts.logBody then none
      else some (data, none, "")
    | some resp =>
      let basic :=
        if opts.logBasicInfo then
          "[" ++ data.id ++ "] <-- " ++ toString resp.statusCode ++ " " ++
            statusText resp.statusCode ++ "\n"
        else ""
      let headerPart :=
        if opts.logHeaders then buildHeaderLogs opts "RESP" data.id resp.headers
        else ""
      match (if opts.logBody then resp.body else none) with
      | some bodyContent =>
        let data' : InterceptorDataA :=
          { data with response := some { resp with body := some bodyContent } }
        match truncateForLog bodyContent opts.maxBodyLogSize with
        | none => none
        | some (logged, truncated) =>
          let bodyLine := "[" ++ data.id ++ "] RESP BODY: " ++ logged ++
            (if truncated then " [truncated...]" else "") ++ "\n"
          some (data', none, basic ++ headerPart ++ bodyLine)
      | none => some (data, none, basic ++ headerPart)

def loggerHookA (opts : LoggerOptions) : HookA :=
  { beforeRequest := fun data w =>
      match loggerBeforeRequestA opts data w with
      | some (d, e, _, w') => .ok d e w'
      | none => .panicked (GoError.msg "runtime panic") w,
    afterResponse := fun data w =>
      match loggerAfterResponseA opts data with
      | some (d, e, _) => .ok d e w
      | none => .panicked (GoError.msg "runtime panic") w }

/-- `treatAsErrorInterceptor_ErrorDetectorAll.IsError` over the aliased
model (response bodies are values, as in the base model). -/
def errorDetectorAllIsErrorA (data : InterceptorDataA) : Option GoError × InterceptorDataA :=
  match data.response with
  | some resp =>
    if 400 ≤ resp.statusCode then
      let defaultError := GoError.msg (defaultErrorText resp.statusCode)
      match resp.body with
      | some bodyContent =>
        let data' : InterceptorDataA :=
          { data with response := some { resp with body := some bodyContent } }
        let t := unmarshalErrorTemplate bodyContent
        if t.messageDetail ≠ "" then (some (GoError.msg t.messageDetail), data')
        else if t.reason ≠ "" then (some (GoError.msg t.reason), data')
        else if t.errorField ≠ "" then (some (GoError.msg t.errorField), data')
        else (some defaultError, data')
      | none => (some defaultError, data)
    else (none, data)
  | none => (none, data)

def treatAsErrorAfterResponseA (data : InterceptorDataA) : InterceptorDataA × Option GoError :=
  let (e, data') := errorDetectorAllIsErrorA data
  match e with
  | some err => ({ data' with error := some err }, none)
  | none => (data', none)

def treatAsErrorHookA : HookA :=
  { beforeRequest := fun data w => .ok data none w,
    afterResponse := fun data w => .ok (treatAsErrorAfterResponseA data).1
      (treatAsErrorAfterResponseA data).2 w }

/-- The replay `Transporter` oracle over the aliased model. -/
def TransporterA := Nat → RequestA → Except GoError Response

/-- `Transporter.RoundTripWithID` as an effect on the aliased world: the
replay is a chain execution whose underlying send consumes the sent
request's body reader; the request is logged and the oracle's outcome
returned. -/
def transporterCallA (tr : TransporterA) (w : AWorld) (req : RequestA) :
    Except GoError Response × AWorld :=
  let w1 := drainReader w req.bodyRef
  (tr w1.sent.length req, { w1 with sent := w1.sent ++ [req] })

/-- `RetryInterceptor.getRetryInternalData` over the aliased world. -/
def getRetryInternalDataA (w : AWorld) (id : String) : Nat × AWorld :=
  match cacheGet w.retryCache id with
  | some n => (n + 1, { w with retryCache := cacheSet w.retryCache id (n + 1) })
  | none => (1, { w with retryCache := cacheSet w.retryCache id 1 })

/-- `RetryInterceptor.BeforeRequest` over the aliased model (replays the
working request). -/
def retryBeforeRequestA (decider : RetryDecider) (tr : TransporterA) :
    Nat → InterceptorDataA → AWorld → AOutcome
  | 0, _, _ => .outOfFuel
  | fuel + 1, data, w =>
    match data.error with
    | none => .ok data none w
    | some _ =>
      let (count, w1) := getRetryInternalDataA w data.id
      match decider data.response data.error count with
      | (false, some e) => .panicked e w1
      | (false, none) => .ok data data.error w1
      | (true, _) =>
        let (res, w2) := transporterCallA tr w1 data.request
        match res with
        | .error e => retryBeforeRequestA decider tr fuel { data with error := some e } w2
        | .ok response =>
          if 400 ≤ response.statusCode then
            retryBeforeRequestA decider tr fuel data w2
          else
            .ok { data with error := none, response := some response } none w2

/-- `RetryInterceptor.AfterResponse` over the aliased model (replays the
pristine `InitialRequest`, whose shared reader the send consumes). -/
def retryAfterResponseA (decider : RetryDecider) (tr : TransporterA) :
    Nat → InterceptorDataA → AWorld → AOutcome
  | 0, _, _ => .outOfFuel
  | fuel + 1, data, w =>
    let (count, w1) := getRetryInternalDataA w data.id
    match decider data.response data.error count with
    | (_, some e) => .ok data (some e) w1
    | (false, none) => .ok data data.error w1
    | (true, none) =>
      let (res, w2) := transporterCallA tr w1 data.initialRequest
      match res with
      | .error e =>
        retryAfterResponseA decider tr fuel { data with response := none, error := some e } w2
      | .ok response =>
        if 400 ≤ response.statusCode then
          retryAfterResponseA decider tr fuel { data with response := some response } w2
        else
          .ok { data with response := some response, error := none } none w2

def retryHookA (decider : RetryDecider) (tr : TransporterA) (fuel : Nat) : HookA :=
  { beforeRequest := fun data w => retryBeforeRequestA decider tr fuel data w,
    afterResponse := fun data w => retryAfterResponseA decider tr fuel data w }

inductive BeforeResultA where
  | proceed (data : InterceptorDataA) (w : AWorld)
  | shortCircuit (resp : Response) (data : InterceptorDataA) (w : AWorld)
  | aborted (e : GoError) (data : InterceptorDataA) (w : AWorld)
  | panicked (e : GoError) (w : AWorld)
  | outOfFuel
deriving Repr, DecidableEq

def runBeforeA : List HookA → InterceptorDataA → AWorld → BeforeResultA
  | [], data, w => .proceed data w
  | h :: rest, data, w =>
    match h.beforeRequest data w with
    | .ok data' err w' =>
      match err with
      | some e => .aborted e data' w'
      | none =>
        match data'.response with
        | some r => .shortCircuit r data' w'
        | none => runBeforeA rest data' w'
    | .panicked e w' => .panicked e w'
    | .outOfFuel => .outOfFuel

inductive AfterResultA where
  | done (data : InterceptorDataA) (w : AWorld)
  | aborted (e : GoError) (data : InterceptorDataA) (w : AWorld)
  | panicked (e : GoError) (w : AWorld)
  | outOfFuel
deriving Repr, DecidableEq

def runAfterA : List HookA → InterceptorDataA → AWorld → AfterResultA
  | [], data, w => .done data w
  | h :: rest, data, w =>
    match h.afterResponse data w with
    | .ok data' err w' =>
      match err with
      | some e => .aborted e data' w'
      | none => runAfterA rest data' w'
    | .panicked e w' => .panicked e w'
    | .outOfFuel => .outOfFuel

/-- The underlying `http.RoundTripper` oracle over the aliased model. -/
def RtOracleA := RequestA → Except GoError Response

/-- The underlying network call: sending consumes the working request's
body reader. -/
def rtCallA (rt : RtOracleA) (w : AWorld) (req : RequestA) :
    Except GoError Response × AWorld :=
  (rt req, drainReader w req.bodyRef)

structure ChainOutcomeA where
  result : ChainResult
  finalData : Option InterceptorDataA
  world : AWorld
  rtLog : List RequestA
deriving Repr, DecidableEq

/-- `InterceptorTransport.RoundTripWithID` over the aliased model: the
pristine snapshot is `req.Clone(req.Context())`, a shallow clone whose
`Body` reader is shared with the working request; the underlying send
consumes the working request's reader. -/
def roundTripWithIDA (hooks : List HookA) (rt : RtOracleA) (req : RequestA) (id : String)
    (w : AWorld) : ChainOutcomeA :=
  let initialReq := requestCloneA req
  let data0 : InterceptorDataA := ⟨id, initialReq, req, none, none⟩
  match runBeforeA hooks data0 w with
  | .aborted e d w1 => ⟨.failure e, some d, w1, []⟩
  | .shortCircuit r d w1 => ⟨.success r, some d, w1, []⟩
  | .panicked e w1 => ⟨.panicked e, none, w1, []⟩
  | .outOfFuel => ⟨.outOfFuel, none, w, []⟩
  | .proceed data w1 =>
    match data.error with
    | some e => ⟨.failure e, some data, w1, []⟩
    | none =>
      let (res, w2) := rtCallA rt w1 data.request
      match res with
      | .error e => ⟨.failure e, some data, w2, [data.request]⟩
      | .ok resp =>
        let data2 := { data with response := some resp }
        match runAfterA hooks data2 w2 with
        | .done d w3 =>
          match d.error with
          | some e => ⟨.failure e, some d, w3, [data.request]⟩
          | none => ⟨.success resp, some d, w3, [data.request]⟩
        | .aborted e d w3 => ⟨.failure e, some d, w3, [data.request]⟩
        | .panicked e w3 => ⟨.panicked e, none, w3, [data.request]⟩
        | .outOfFuel => ⟨.outOfFuel, none, w2, [data.request]⟩

/-! ## Snapshot preservation on the aliased model -/

/-- A hook phase never reassigns the pristine snapshot's fields (the value
behind its shared reader lives in the world and is not covered). -/
def PreservesInitialA (f : InterceptorDataA → AWorld → AOutcome) : Prop :=
  ∀ data w d' e w', f data w = .ok d' e w' → d'.initialRequest = data.initialRequest

theorem retryBeforeA_preserves_initial (decider : RetryDecider) (tr : TransporterA) :
    ∀ fuel, PreservesInitialA (retryBeforeRequestA decider tr fuel) := by
  intro fuel
  induction fuel with
  | zero =>
    intro data w d' e w' h
    simp [retryBeforeRequestA] at h
  | succ n ih =>
    intro data w d' e w' h
    simp only [retryBeforeRequestA] at h
    rcases herr : data.error with _ | e0 <;> rw [herr] at h
    · simp only [AOutcome.ok.injEq] at h
      obtain ⟨rfl, -, -⟩ := h
      rfl
    · rcases hg : getRetryInternalDataA w data.id with ⟨count, w1⟩
      rw [hg] at h
      dsimp only at h
      rcases hd : decider data.response (some e0) count with ⟨sr, de⟩
      rw [hd] at h
      rcases sr with _ | _
      · rcases de with _ | e1
        · simp only [AOutcome.ok.injEq] at h
          obtain ⟨rfl, -, -⟩ := h
          rfl
        · simp at h
      · dsimp only [transporterCallA] at h
        rcases ht : tr (drainReader w1 data.request.bodyRef).sent.length data.request
            with e1 | resp <;> rw [ht] at h <;> dsimp only at h
        · exact ih { data with error := some e1 } _ d' e w' h
        · split at h
          · exact ih data _ d' e w' h
          · simp only [AOutcome.ok.injEq] at h
            obtain ⟨rfl, -, -⟩ := h
            rfl

theorem retryAfterA_preserves_initial (decider : RetryDecider) (tr : TransporterA) :
    ∀ fuel, PreservesInitialA (retryAfterResponseA decider tr fuel) := by
  intro fuel
  induction fuel with
  | zero =>
    intro data w d' e w' h
    simp [retryAfterResponseA] at h
  | succ n ih =>
    intro data w d' e w' h
    simp only [retryAfterResponseA] at h
    rcases hg : getRetryInternalDataA w data.id with ⟨count, w1⟩
    rw [hg] at h
    dsimp only at h
    rcases hd : decider data.response data.error count with ⟨sr, de⟩
    rw [hd] at h
    rcases de with _ | e1
    · rcases sr with _ | _
      · simp only [AOutcome.ok.injEq] at h
        obtain ⟨rfl, -, -⟩ := h
        rfl
      · dsimp only [transporterCallA] at h
        rcases ht : tr (drainReader w1 data.initialRequest.bodyRef).sent.length
            data.initialRequest with e1 | resp <;> rw [ht] at h <;> dsimp only at h
        · exact ih { data with response := none, error := some e1 } _ d' e w' h
        · split at h
          · exact ih { data with response := some resp } _ d' e w' h
          · simp only [AOutcome.ok.injEq] at h
            obtain ⟨rfl, -, -⟩ := h
            rfl
    · rcases sr with _ | _ <;>
        (simp only [AOutcome.ok.injEq] at h
         obtain ⟨rfl, -, -⟩ := h
         rfl)

theorem loggerBeforeA_initial (opts : LoggerOptions) (data : InterceptorDataA) (w : AWorld)
    (out : InterceptorDataA × Option GoError × String × AWorld)
    (h : loggerBeforeRequestA opts data w = some out) :
    out.1.initialRequest = data.initialRequest := by
  unfold loggerBeforeRequestA at h
  by_cases hskip : (opts.skipPaths.any fun p => p.isPrefixOf data.request.urlPath) = true
  · rw [if_pos hskip] at h
    simp only [Option.some.injEq] at h
    subst h
    rfl
  · rw [if_neg hskip] at h
    dsimp only at h
    rcases hscrut : (if opts.logBody = true then data.request.bodyRef else none) with _ | r <;>
      rw [hscrut] at h <;> dsimp only at h
    · simp only [Option.some.injEq] at h
      subst h
      rfl
    · rcases htr2 : truncateForLog (readerReadAll w r).1 opts.maxBodyLogSize
          with _ | ⟨logged, trunc⟩ <;> rw [htr2] at h <;> dsimp only at h
      · exact absurd h (by simp)
      · simp only [Option.some.injEq] at h
        subst h
        rfl

theorem loggerAfterA_initial (opts : LoggerOptions) (data : InterceptorDataA)
    (out : InterceptorDataA × Option GoError × String)
    (h : loggerAfterResponseA opts data = some out) :
    out.1.initialRequest = data.initialRequest := by
  unfold loggerAfterResponseA at h
  by_cases hskip : (opts.skipPaths.any fun p => p.isPrefixOf data.request.urlPath) = true
  · rw [if_pos hskip] at h
    simp only [Option.some.injEq] at h
    subst h
    rfl
  · rw [if_neg hskip] at h
    rcases hresp : data.response with _ | resp <;> rw [hresp] at h <;> dsimp only at h
    · by_cases hflag : (opts.logBasicInfo = true ∨ opts.logHeaders = true ∨ opts.logBody = true)
      · rw [if_pos hflag] at h
        cases h
      · rw [if_neg hflag] at h
        simp only [Option.some.injEq] at h
        subst h
        rfl
    · rcases hscrut : (if opts.logBody = true then resp.body else none) with _ | bc <;>
        rw [hscrut] at h <;> dsimp only at h
      · simp only [Option.some.injEq] at h
        subst h
        rfl
      · rcases htr2 : truncateForLog bc opts.maxBodyLogSize with _ | ⟨logged, trunc⟩ <;>
          rw [htr2] at h <;> dsimp only at h
        · exact absurd h (by simp)
        · simp only [Option.some.injEq] at h
          subst h
          rfl

theorem errorDetectorAllA_initial (data : InterceptorDataA) :
    (errorDetectorAllIsErrorA data).2.initialRequest = data.initialRequest := by
  unfold errorDetectorAllIsErrorA
  split
  · split_ifs
    · split
      · dsimp only
        split_ifs <;> rfl
      · rfl
    · rfl
  · rfl

theorem treatAsErrorAfterA_initial (data : InterceptorDataA) :
    (treatAsErrorAfterResponseA data).1.initialRequest = data.initialRequest := by
  unfold treatAsErrorAfterResponseA
  rcases he : errorDetectorAllIsErrorA data with ⟨eo, d1⟩
  have hd1 : d1.initialRequest = data.initialRequest := by
    have := errorDetectorAllA_initial data
    rw [he] at this
    exact this
  dsimp only
  rcases eo with _ | err <;> dsimp only <;> exact hd1

/-- Both phases of a hook preserve the snapshot's fields. -/
def HookPreservesInitialA (h : HookA) : Prop :=
  PreservesInitialA h.beforeRequest ∧ PreservesInitialA h.afterResponse

theorem authenticatorHookA_preserves (key : String) :
    HookPreservesInitialA (authenticatorHookA key) := by
  constructor <;> intro data w d' e w' h <;>
    simp only [authenticatorHookA, AOutcome.ok.injEq] at h
  · obtain ⟨h1, -, -⟩ := h
    rw [← h1]
    rfl
  · obtain ⟨h1, -, -⟩ := h
    rw [← h1]

theorem treatAsErrorHookA_preserves : HookPreservesInitialA treatAsErrorHookA := by
  constructor <;> intro data w d' e w' h <;>
    simp only [treatAsErrorHookA, AOutcome.ok.injEq] at h
  · obtain ⟨h1, -, -⟩ := h
    rw [← h1]
  · obtain ⟨h1, -, -⟩ := h
    rw [← h1]
    exact treatAsErrorAfterA_initial data

theorem loggerHookA_preserves (opts : LoggerOptions) :
    HookPreservesInitialA (loggerHookA opts) := by
  constructor <;> intro data w d' e w' h <;> dsimp only [loggerHookA] at h
  · rcases hl : loggerBeforeRequestA opts data w with _ | out <;> rw [hl] at h
    · simp at h
    · rcases out with ⟨od, oe, olg, ow⟩
      dsimp only at h
      simp only [AOutcome.ok.injEq] at h
      obtain ⟨h1, -, -⟩ := h
      have heq := loggerBeforeA_initial opts data w ⟨od, oe, olg, ow⟩ hl
      dsimp only at heq
      rw [← h1, heq]
  · rcases hl : loggerAfterResponseA opts data with _ | out <;> rw [hl] at h
    · simp at h
    · rcases out with ⟨od, oe, olg⟩
      dsimp only at h
      simp only [AOutcome.ok.injEq] at h
      obtain ⟨h1, -, -⟩ := h
      have heq := loggerAfterA_initial opts data ⟨od, oe, olg⟩ hl
      dsimp only at heq
      rw [← h1, heq]

theorem retryHookA_preserves (decider : RetryDecider) (tr : TransporterA) (fuel : Nat) :
    HookPreservesInitialA (retryHookA decider tr fuel) :=
  ⟨retryBeforeA_preserves_initial decider tr fuel,
   retryAfterA_preserves_initial decider tr fuel⟩

def BeforeResultA.data? : BeforeResultA → Option InterceptorDataA
  | .proceed d _ => some d
  | .shortCircuit _ d _ => some d
  | .aborted _ d _ => some d
  | .panicked _ _ => none
  | .outOfFuel => none

def AfterResultA.data? : AfterResultA → Option InterceptorDataA
  | .done d _ => some d
  | .aborted _ d _ => some d
  | .panicked _ _ => none
  | .outOfFuel => none

theorem runBeforeA_preserves_initial :
    ∀ (hooks : List HookA), (∀ h ∈ hooks, PreservesInitialA h.beforeRequest) →
    ∀ data w d', (runBeforeA hooks data w).data? = some d' →
      d'.initialRequest = data.initialRequest := by
  intro hooks
  induction hooks with
  | nil =>
    intro hh data w d' h
    simp only [runBeforeA, BeforeResultA.data?, Option.some.injEq] at h
    subst h
    rfl
  | cons hk rest ih =>
    intro hh data w d' h
    simp only [runBeforeA] at h
    rcases hb : hk.beforeRequest data w with ⟨d1, e1, w1⟩ | ⟨e1, w1⟩ | _ <;> rw [hb] at h <;>
      dsimp only at h
    · have hpres : d1.initialRequest = data.initialRequest :=
        (hh hk (List.mem_cons_self hk rest)) data w d1 e1 w1 hb
      rcases e1 with _ | e2
      · rcases hr : d1.response with _ | r <;> rw [hr] at h <;> dsimp only at h
        · have := ih (fun h hm => hh h (List.mem_cons_of_mem hk hm)) d1 w1 d' h
          rw [this, hpres]
        · simp only [BeforeResultA.data?, Option.some.injEq] at h
          subst h
          exact hpres
      · simp only [BeforeResultA.data?, Option.some.injEq] at h
        subst h
        exact hpres
    · simp [BeforeResultA.data?] at h
    · simp [BeforeResultA.data?] at h

theorem runAfterA_preserves_initial :
    ∀ (hooks : List HookA), (∀ h ∈ hooks, PreservesInitialA h.afterResponse) →
    ∀ data w d', (runAfterA hooks data w).data? = some d' →
      d'.initialRequest = data.initialRequest := by
  intro hooks
  induction hooks with
  | nil =>
    intro hh data w d' h
    simp only [runAfterA, AfterResultA.data?, Option.some.injEq] at h
    subst h
    rfl
  | cons hk rest ih =>
    intro hh data w d' h
    simp only [runAfterA] at h
    rcases hb : hk.afterResponse data w with ⟨d1, e1, w1⟩ | ⟨e1, w1⟩ | _ <;> rw [hb] at h <;>
      dsimp only at h
    · have hpres : d1.initialRequest = data.initialRequest :=
        (hh hk (List.mem_cons_self hk rest)) data w d1 e1 w1 hb
      rcases e1 with _ | e2
      · have := ih (fun h hm => hh h (List.mem_cons_of_mem hk hm)) d1 w1 d' h
        rw [this, hpres]
      · simp only [AfterResultA.data?, Option.some.injEq] at h
        subst h
        exact hpres
    · simp [AfterResultA.data?] at h
    · simp [AfterResultA.data?] at h

theorem roundTripWithIDA_preserves_initial (hooks : List HookA)
    (hh : ∀ h ∈ hooks, HookPreservesInitialA h) (rt : RtOracleA) (req : RequestA)
    (id : String) (w : AWorld) (d : InterceptorDataA)
    (h : (roundTripWithIDA hooks rt req id w).finalData = some d) :
    d.initialRequest = requestCloneA req := by
  have hhb : ∀ hk ∈ hooks, PreservesInitialA hk.beforeRequest := fun hk hm => (hh hk hm).1
  have hha : ∀ hk ∈ hooks, PreservesInitialA hk.afterResponse := fun hk hm => (hh hk hm).2
  unfold roundTripWithIDA at h
  dsimp only at h
  rcases hb : runBeforeA hooks ⟨id, requestCloneA req, req, none, none⟩ w with
      ⟨d1, w1⟩ | ⟨r, d1, w1⟩ | ⟨e1, d1, w1⟩ | ⟨e1, w1⟩ | _ <;> rw [hb] at h <;> dsimp only at h
  · have hd1 : d1.initialRequest = requestCloneA req := by
      have hpre := runBeforeA_preserves_initial hooks hhb ⟨id, requestCloneA req, req, none, none⟩ w d1
      rw [hb] at hpre
      exact hpre (by rfl)
    rcases herr : d1.error with _ | e2 <;> rw [herr] at h <;> dsimp only at h
    · dsimp only [rtCallA] at h
      rcases hrt : rt d1.request with e3 | resp <;> rw [hrt] at h <;> dsimp only at h
      · simp only [Option.some.injEq] at h
        subst h
        exact hd1
      · have hd2pre := runAfterA_preserves_initial hooks hha
          ⟨d1.id, d1.initialRequest, d1.request, some resp, none⟩ (drainReader w1 d1.request.bodyRef)
        rcases ha : runAfterA hooks ⟨d1.id, d1.initialRequest, d1.request, some resp, none⟩
            (drainReader w1 d1.request.bodyRef) with
            ⟨d2, w2⟩ | ⟨e4, d2, w2⟩ | ⟨e4, w2⟩ | _ <;> rw [ha] at h <;> rw [ha] at hd2pre <;>
          dsimp only at h
        · have hd2 : d2.initialRequest = d1.initialRequest := hd2pre d2 (by rfl)
          rcases herr2 : d2.error with _ | e5 <;> rw [herr2] at h <;> dsimp only at h <;>
            simp only [Option.some.injEq] at h <;> subst h <;> rw [hd2, hd1]
        · have hd2 : d2.initialRequest = d1.initialRequest := hd2pre d2 (by rfl)
          simp only [Option.some.injEq] at h
          subst h
          rw [hd2, hd1]
        · cases h
        · cases h
    · simp only [Option.some.injEq] at h
      subst h
      exact hd1
  · have hd1 : d1.initialRequest = requestCloneA req := by
      have hpre := runBeforeA_preserves_initial hooks hhb ⟨id, requestCloneA req, req, none, none⟩ w d1
      rw [hb] at hpre
      exact hpre (by rfl)
    simp only [Option.some.injEq] at h
    subst h
    exact hd1
  · have hd1 : d1.initialRequest = requestCloneA req := by
      have hpre := runBeforeA_preserves_initial hooks hhb ⟨id, requestCloneA req, req, none, none⟩ w d1
      rw [hb] at hpre
      exact hpre (by rfl)
    simp only [Option.some.injEq] at h
    subst h
    exact hd1
  · cases h
  · cases h

def req0A : RequestA := ⟨"POST", "/v1/items", [], some 0⟩

def w0A : AWorld := ⟨[(0, "hello")], 1, [], []⟩

def optsB : LoggerOptions := ⟨false, false, true, 1024, [], []⟩

def rtA200 : RtOracleA := fun _ => .ok resp200

def c3runA : ChainOutcomeA := roundTripWithIDA [loggerHookA optsB] rtA200 req0A "id-c3" w0A

/-- C3 counterexample: the pristine snapshot IS observably mutated after its
creation.  `req.Clone` shares the `Body` reader with the working request, so
when the logger's before-phase reads the body (restoring only the working
request's `Body` field), the snapshot's readable body content is drained:
it was "hello" at call start and is "" after the run, even though the
snapshot still holds its original reader reference. -/
theorem c3_snapshot_readable_body_drained :
    readableBody w0A (requestCloneA req0A) = "hello" ∧
    (∃ d, c3runA.finalData = some d ∧
      d.initialRequest.bodyRef = req0A.bodyRef ∧
      readableBody c3runA.world d.initialRequest = "") ∧
    ("hello" : String) ≠ "" := by
  refine ⟨rfl, ⟨⟨"id-c3", ⟨"POST", "/v1/items", [], some 0⟩,
    ⟨"POST", "/v1/items", [], some 1⟩, some resp200, none⟩, rfl, rfl, rfl⟩, by decide⟩

/-- C3 (amended): for every chain execution over the aliased model — any
secret key, logger options, retry decider, replay transporter, fuel,
underlying transport and initial world, including executions with replays —
the pristine snapshot's fields are never reassigned after creation: the
final context's `InitialRequest` equals the shallow clone taken at call
start, so in particular its headers are identical before and after any
replay, and its `Body` reference is still the one shared with the original
request (whose readable content body reads may have drained). -/
theorem c3_amended_snapshot_fields_preserved (key : String) (opts : LoggerOptions)
    (decider : RetryDecider) (tr : TransporterA) (fuel : Nat) (rt : RtOracleA)
    (req : RequestA) (id : String) (w : AWorld) (d : InterceptorDataA)
    (h : (roundTripWithIDA [authenticatorHookA key, loggerHookA opts, treatAsErrorHookA,
        retryHookA decider tr fuel] rt req id w).finalData = some d) :
    d.initialRequest = requestCloneA req ∧
    d.initialRequest.headers = req.headers ∧
    d.initialRequest.bodyRef = req.bodyRef := by
  have hall : ∀ hk ∈ [authenticatorHookA key, loggerHookA opts, treatAsErrorHookA,
      retryHookA decider tr fuel], HookPreservesInitialA hk := by
    intro hk hm
    simp only [List.mem_cons, List.mem_singleton] at hm
    rcases hm with rfl | rfl | rfl | rfl | h0
    · exact authenticatorHookA_preserves key
    · exact loggerHookA_preserves opts
    · exact treatAsErrorHookA_preserves
    · exact retryHookA_preserves decider tr fuel
    · cases h0
  have heq := roundTripWithIDA_preserves_initial _ hall rt req id w d h
  refine ⟨heq, ?_, ?_⟩ <;> rw [heq] <;> rfl

def trA200 : TransporterA := fun _ _ => .ok resp200

/-- C3 witness: a concrete aliased chain run (authenticator mutating the
working headers, logger reading the shared body) whose final context still
holds the snapshot with its original headers and shared reader reference. -/
theorem c3_amended_snapshot_fields_preserved_witness :
    (⟨"id-w3a", ⟨"POST", "/v1/items", [], some 0⟩,
      ⟨"POST", "/v1/items", [("Authorization", "Bearer k")], some 1⟩,
      some resp200, none⟩ : InterceptorDataA).initialRequest = requestCloneA req0A ∧
    (⟨"id-w3a", ⟨"POST", "/v1/items", [], some 0⟩,
      ⟨"POST", "/v1/items", [("Authorization", "Bearer k")], some 1⟩,
      some resp200, none⟩ : InterceptorDataA).initialRequest.headers = req0A.headers ∧
    (⟨"id-w3a", ⟨"POST", "/v1/items", [], some 0⟩,
      ⟨"POST", "/v1/items", [("Authorization", "Bearer k")], some 1⟩,
      some resp200, none⟩ : InterceptorDataA).initialRequest.bodyRef = req0A.bodyRef :=
  c3_amended_snapshot_fields_preserved "k" optsB (retryDeciderAll 3) trA200 5 rtA200
    req0A "id-w3a" w0A
    ⟨"id-w3a", ⟨"POST", "/v1/items", [], some 0⟩,
      ⟨"POST", "/v1/items", [("Authorization", "Bearer k")], some 1⟩,
      some resp200, none⟩ rfl
